import Mathlib

/-!
# pid1: a shallow embedding of `src/pid1.c`

`pid1.c` is a minimal init process for containers: it forks the workload
(`pid2`), reaps every child it is handed (`reap_zombies`), and on SIGTERM
signals its direct children for up to `TERM_ATTEMPTS` rounds (`terminate`,
`kill_children`, `get_ppid`).

The operating system is the environment of the program and is modelled by
explicit inputs:

* the results of successive `wait()` calls are a list of `WaitOutcome`s; when
  the list is exhausted no child ever changes state again, so a further
  `wait()` does not return (the functions below then yield `none`);
* `/proc` is a `ProcFS`: the directory listing and the readable files, the
  same during one sweep of `kill_children`;
* an uninitialised local variable is an arbitrary value handed in as a
  parameter;
* SIGTERM is delivered while `main` is in the loop of `reap_zombies`: between
  two passes (or blocked in `wait()`), where the globals are those `reap_run`
  gives for the outcomes consumed so far, or inside a pass, where they are
  those `pass_point` gives; the handler `terminate` starts from these globals
  and consumes the outcomes that follow.

The functions of the C library the program calls (`wait`, the wait-status
macros, `snprintf`, `fscanf`, `isdigit`, `atoi`) are written after their
behaviour in glibc on Linux.

Debug logging (`log_debug`, `log_error`) has no effect on the state and is left
out.
-/

namespace Pid1

/-! ## Constants of the C library and of the program -/

/-- The signal number of SIGTERM on Linux (`<signal.h>`). -/
def SIGTERM : Int := 15

/-- The errno value "no child processes" on Linux (`<errno.h>`). -/
def ECHILD : Int := 10

/-- The errno value "interrupted system call" on Linux (`<errno.h>`). -/
def EINTR : Int := 4

/-- Line 20: `#define TERM_ATTEMPTS 5`. -/
def TERM_ATTEMPTS : Nat := 5

/-! ## The wait-status macros of `<sys/wait.h>`

They are written as in glibc (`bits/waitstatus.h`); `status & 0x7f` is
`status % 128` and `(status & 0xff00) >> 8` is `status / 256 % 256` (Euclidean
division, which is what the bit operations compute on a two's-complement
`int`). -/

/-- The macro `WTERMSIG(status)`, that is `status & 0x7f`. -/
def WTERMSIG (status : Int) : Int := status % 128

/-- The macro `WEXITSTATUS(status)`, that is `(status & 0xff00) >> 8`. -/
def WEXITSTATUS (status : Int) : Int := status / 256 % 256

/-- The macro `WIFEXITED(status)`, that is `WTERMSIG(status) == 0`. -/
def WIFEXITED (status : Int) : Bool := WTERMSIG status == 0

/-- The cast `(signed char) x` for `0 ≤ x < 256`. -/
def signed_char (x : Int) : Int := if 128 ≤ x % 256 then x % 256 - 256 else x % 256

/-- The macro `WIFSIGNALED(status)`, that is
`((signed char) ((status & 0x7f) + 1) >> 1) > 0`. -/
def WIFSIGNALED (status : Int) : Bool := decide (0 < signed_char (status % 128 + 1) / 2)

/-! ## Global state and the outcomes of `wait()` -/

/-- The globals of the program (lines 35-36) together with the C library's
`errno`. -/
structure Globals where
  pid2 : Int
  pid2_exitcode : Int
  errno : Int
  deriving DecidableEq, Repr

/-- One return of `wait(&status)`: either a child was reaped (the return value
is its pid, a positive number, and `status` is written), or the call failed
(the return value is `-1`, `errno` is set and `status` is left alone). -/
inductive WaitOutcome where
  | reaped (pid : Nat) (status : Int)
  | failed (errno : Int)
  deriving DecidableEq, Repr

/-- The effect of `w = wait(&status)` on `errno`, `w` and `status`. -/
def wait (g : Globals) (status : Int) : WaitOutcome → Globals × Int × Int
  | WaitOutcome.reaped pid st => (g, (pid : Int), st)
  | WaitOutcome.failed e => ({ g with errno := e }, -1, status)

/-- Lines 97-102: one pass through the body of the `do ... while` loop of
`reap_zombies`. The result is the new globals, `w` and `status`. -/
def reap_body (g : Globals) (status : Int) (o : WaitOutcome) : Globals × Int × Int :=
  let r := wait g status o
  let g1 := r.1
  let w := r.2.1
  let status1 := r.2.2
  let g2 := if w = g1.pid2 ∧ WIFEXITED status1 = true then
      { g1 with pid2_exitcode := WEXITSTATUS status1 } else g1
  let g3 := if w = g2.pid2 ∧ WIFSIGNALED status1 = true ∧ WTERMSIG status1 = SIGTERM then
      { g2 with pid2_exitcode := 0 } else g2
  (g3, w, status1)

/-- Lines 92-104: `reap_zombies`. `status` is the (uninitialised) value of the
local on entry. The loop runs while `w != -1 || errno != ECHILD`. The result is
the globals on return and the outcomes not yet consumed; `none` when `wait()`
never returns. -/
def reap_zombies (g : Globals) (status : Int) : List WaitOutcome → Option (Globals × List WaitOutcome)
  | [] => none
  | o :: rest =>
    let r := reap_body g status o
    if r.2.1 ≠ -1 ∨ r.1.errno ≠ ECHILD then reap_zombies r.1 r.2.2 rest
    else some (r.1, rest)

/-- The globals and `status` after the body of the reap loop has run on each
outcome of a list in turn: the state of `reap_zombies` when it has made these
passes and has not returned. -/
def reap_run (g : Globals) (status : Int) : List WaitOutcome → Globals × Int
  | [] => (g, status)
  | o :: rest => reap_run (reap_body g status o).1 (reap_body g status o).2.2 rest

/-- The points inside one pass of the reap loop at which the globals can be
looked at: after `wait()` has returned (line 97), after the first test and
assignment (line 100), and after the second (line 102). -/
inductive PassPoint where
  | waited
  | tested_exit
  | recorded
  deriving DecidableEq, Repr

/-- Lines 97-102 run as far as the given point: the globals there. At
`PassPoint.recorded` they are those of `reap_body`. -/
def pass_point (pt : PassPoint) (g : Globals) (status : Int) (o : WaitOutcome) : Globals :=
  let r := wait g status o
  let g1 := r.1
  let w := r.2.1
  let status1 := r.2.2
  let g2 := if w = g1.pid2 ∧ WIFEXITED status1 = true then
      { g1 with pid2_exitcode := WEXITSTATUS status1 } else g1
  let g3 := if w = g2.pid2 ∧ WIFSIGNALED status1 = true ∧ WTERMSIG status1 = SIGTERM then
      { g2 with pid2_exitcode := 0 } else g2
  match pt with
  | PassPoint.waited => g1
  | PassPoint.tested_exit => g2
  | PassPoint.recorded => g3

/-! ## `/proc` and `get_ppid` -/

/-- The part of the file system the program looks at: what `opendir("/proc")`
and `readdir` list (`none` when the directory cannot be opened) and what
`fopen(path, "r")` finds (`none` when the file cannot be opened). -/
structure ProcFS where
  dir : Option (List (List Char))
  file : List Char → Option (List Char)

/-- The C library's `isspace` in the C locale. -/
def isspace (c : Char) : Bool :=
  c.toNat == 32 || (9 ≤ c.toNat && c.toNat ≤ 13)

/-- The C library's `isdigit`. -/
def isdigit (c : Char) : Bool :=
  48 ≤ c.toNat && c.toNat ≤ 57

/-- Skip white space, as a blank in a `scanf` format and the conversions `%d`
and `%s` do. -/
def skip_ws : List Char → List Char
  | [] => []
  | c :: cs => if isspace c then skip_ws cs else c :: cs

/-- The value of a run of decimal digits. -/
def digits_value (ds : List Char) : Int :=
  ds.foldl (fun n c => 10 * n + ((c.toNat : Int) - 48)) 0

/-- The conversion of glibc from the digits read to an `int`: `strtol` clamps
the value to the range of a 64-bit `long`, and the store into an `int` keeps
the low 32 bits. -/
def to_int (v : Int) : Int :=
  let l := max (-(2 ^ 63)) (min v (2 ^ 63 - 1))
  (l + 2 ^ 31) % 2 ^ 32 - 2 ^ 31

/-- An optional sign in front of a number: whether it is a minus, and the
rest. -/
def take_sign : List Char → Bool × List Char
  | c :: cs => if c = '-' then (true, cs) else if c = '+' then (false, cs) else (false, c :: cs)
  | [] => (false, [])

/-- The `scanf` conversion `%d` (and `%*d`, which throws the value away): skip
white space, read an optional sign and at least one digit. The result is the
`int` and the unread input; `none` when the conversion fails. -/
def scan_d (s : List Char) : Option (Int × List Char) :=
  let r := take_sign (skip_ws s)
  let ds := r.2.takeWhile isdigit
  if ds = [] then none
  else some (to_int (if r.1 then - digits_value ds else digits_value ds), r.2.dropWhile isdigit)

/-- The `scanf` conversion `%*s`: skip white space and read at least one
character up to the next white space. The result is the unread input. -/
def scan_s (s : List Char) : Option (List Char) :=
  let t := skip_ws s
  if t.takeWhile (fun c => !isspace c) = [] then none
  else some (t.dropWhile (fun c => !isspace c))

/-- The `scanf` conversion `%*c`: read one character, whatever it is. -/
def scan_c : List Char → Option (List Char)
  | [] => none
  | _ :: cs => some cs

/-- Line 52: `fscanf(fd, "%*d %*s %*c %d", &ppid)`. The result is `some ppid`
when the call returns 1 (the one assignment was made) and `none` when it
returns anything else. -/
def fscanf_ppid (content : List Char) : Option Int :=
  match scan_d content with
  | none => none
  | some (_, s1) =>
    match scan_s (skip_ws s1) with
    | none => none
    | some s2 =>
      match scan_c (skip_ws s2) with
      | none => none
      | some s3 =>
        match scan_d (skip_ws s3) with
        | none => none
        | some (ppid, _) => some ppid

/-- Line 48: `snprintf(fname, 18, "/proc/%s/stat", pid)`: the buffer holds 18
bytes, so at most 17 characters of the path are kept. -/
def fname (pid : List Char) : List Char :=
  ("/proc/".toList ++ pid ++ "/stat".toList).take 17

/-- Lines 42-58: `get_ppid`. It returns 0 when the file cannot be opened or
`fscanf` does not return 1. -/
def get_ppid (fs : ProcFS) (pid : List Char) : Int :=
  match fs.file (fname pid) with
  | none => 0
  | some content =>
    match fscanf_ppid content with
    | none => 0
    | some ppid => ppid

/-- The C library's `atoi`, that is `(int) strtol(s, NULL, 10)`: skip white
space, read an optional sign and the digits that follow; 0 when there are
none. -/
def atoi (s : List Char) : Int :=
  let r := take_sign (skip_ws s)
  let v := digits_value (r.2.takeWhile isdigit)
  to_int (if r.1 then - v else v)

/-- The first byte `d_name[0]` of a directory entry's name; the terminating
NUL for an empty name. -/
def first_char (name : List Char) : Char := name.headD (Char.ofNat 0)

/-- Lines 73-82: the body of the `readdir` loop of `kill_children` for one
entry. The state is the list of pids `kill(_, SIGTERM)` was called with, in
order, and the counter `killed`. -/
def kill_entry (fs : ProcFS) (pid : Int) (acc : List Int × Int) (d_name : List Char) :
    List Int × Int :=
  if !isdigit (first_char d_name) then acc
  else if get_ppid fs d_name = pid then (acc.1 ++ [atoi d_name], acc.2 + 1)
  else acc

/-- Lines 64-86: `kill_children`. The result is the list of pids SIGTERM was
sent to, in order, and the return value `killed`. -/
def kill_children (fs : ProcFS) (pid : Int) : List Int × Int :=
  match fs.dir with
  | none => ([], 0)
  | some items => items.foldl (kill_entry fs pid) ([], 0)

/-! ## The kernel's side of `/proc`

What the kernel shows of a process table, after proc(5): a directory per
process, named by the pid in decimal, whose `stat` file starts
`pid (comm) state ppid ...`. -/

/-- A process as the kernel knows it: pid, command name, state letter and
parent pid. -/
structure Process where
  pid : Nat
  comm : List Char
  state : Char
  ppid : Nat

/-- The decimal digits of a number. -/
def decimal (n : Nat) : List Char := (Nat.toDigits 10 n)

/-- The first fields of `/proc/<pid>/stat` as the kernel prints them, followed
by `more` (the remaining fields). -/
def stat_record (p : Process) (more : List Char) : List Char :=
  decimal p.pid ++ " (".toList ++ p.comm ++ ") ".toList ++ [p.state] ++ " ".toList ++
    decimal p.ppid ++ more

/-- The path of the `stat` file of a process. -/
def stat_path (p : Process) : List Char :=
  "/proc/".toList ++ decimal p.pid ++ "/stat".toList

/-- The `/proc` of a process table: the entries `others` that are not
processes (such as `cpuinfo` or `self`) followed by one directory per
process, and the `stat` files of the processes. -/
def procfs (ps : List Process) (others : List (List Char)) (more : List Char) : ProcFS where
  dir := some (others ++ ps.map (fun p => decimal p.pid))
  file := fun path => (ps.find? (fun p => decide (stat_path p = path))).map (fun p => stat_record p more)

/-! ## `terminate` and `main` -/

/-- What `terminate` does, in order. -/
inductive Action where
  | sweep (signalled : List Int) (killed : Int)
  | sleep
  | reap
  | exit (code : Int)
  deriving DecidableEq, Repr

/-- The environment of the SIGTERM handler: its own pid, and for the round
`i = 0, 1, ...` the state of `/proc` during the sweep and the uninitialised
value of the local `status` of the `reap_zombies` call. -/
structure TermEnv where
  getpid : Int
  proc : Nat → ProcFS
  status : Nat → Int

/-- The outcome of `terminate`: what it did, the argument of `exit` (`none`
when `exit` is never reached because a `wait()` does not return), the globals
at that point (at the `exit`, or in the `wait()` that does not return) and the
`wait()` outcomes left unconsumed. -/
structure TermResult where
  actions : List Action
  exit : Option Int
  globals : Globals
  rest : List WaitOutcome

/-- Lines 118-126: the `for` loop of `terminate` with `k` rounds left, that is
`i = TERM_ATTEMPTS - k`, followed by `exit(pid2_exitcode)`. When the
`reap_zombies` of a round does not return, it has made its passes on all the
outcomes there are and waits in `wait()`. -/
def terminate_loop (env : TermEnv) : Nat → Globals → List WaitOutcome → TermResult
  | 0, g, ws => ⟨[Action.exit g.pid2_exitcode], some g.pid2_exitcode, g, ws⟩
  | k + 1, g, ws =>
    let i := TERM_ATTEMPTS - (k + 1)
    let r := kill_children (env.proc i) env.getpid
    if r.2 = 0 then
      ⟨[Action.sweep r.1 r.2, Action.exit g.pid2_exitcode], some g.pid2_exitcode, g, ws⟩
    else
      match reap_zombies g (env.status i) ws with
      | none =>
        ⟨[Action.sweep r.1 r.2, Action.sleep, Action.reap], none,
          (reap_run g (env.status i) ws).1, []⟩
      | some (g1, ws1) =>
        let t := terminate_loop env k g1 ws1
        ⟨Action.sweep r.1 r.2 :: Action.sleep :: Action.reap :: t.actions, t.exit, t.globals, t.rest⟩

/-- Lines 113-127: `terminate`, the SIGTERM handler. -/
def terminate (env : TermEnv) (g : Globals) (ws : List WaitOutcome) : TermResult :=
  terminate_loop env TERM_ATTEMPTS g ws

/-- The inputs of `main`: `argc`, whether the program was built with `DEBUG`,
the return values of `getpid`, `fork`, `sigprocmask` and `execvp`, whether
`signal` returned `SIG_ERR`, the initial `errno` and the uninitialised value
of the local `status` of `reap_zombies`. `execvp` is `none` when it succeeds
(it then does not return). -/
structure Startup where
  argc : Nat
  debug : Bool
  getpid : Int
  fork : Int
  sigprocmask : Int
  signal_err : Bool
  execvp : Option Int
  errno : Int
  status : Int

/-- Lines 134-172: `main`. The result is its return value, `none` when it does
not return. No SIGTERM is delivered while it runs. -/
def main (s : Startup) (ws : List WaitOutcome) : Option Int :=
  if s.argc < 2 then some 1
  else if !s.debug && s.getpid != 1 then some 1
  else
    let g : Globals := { pid2 := s.fork, pid2_exitcode := 255, errno := s.errno }
    if g.pid2 ≠ 0 then
      if s.sigprocmask ≠ 0 then some 1
      else if s.signal_err then some 1
      else
        match reap_zombies g s.status ws with
        | none => none
        | some (g1, _) => some g1.pid2_exitcode
    else s.execvp

/-! ## Vocabulary of the statements -/

/-- Whether an outcome of `wait()` is a reaped child with the given pid. -/
def carries (pid : Nat) : WaitOutcome → Bool
  | WaitOutcome.reaped p _ => p == pid
  | WaitOutcome.failed _ => false

/-- Whether an outcome of `wait()` is one after which the exit code recorded
for the workload `pid` is what it was: a failed `wait()`, a reaped child with
another pid, or a child killed by another signal than SIGTERM. -/
def keeps (pid : Nat) : WaitOutcome → Bool
  | WaitOutcome.reaped p st => p != pid || (WIFSIGNALED st && WTERMSIG st != SIGTERM)
  | WaitOutcome.failed _ => true

/-- The failure of `wait()` with `ECHILD`: no children to wait for. -/
def no_children : WaitOutcome := WaitOutcome.failed ECHILD

/-- A start of `main` that gets as far as the `fork` and in which `fork`
returns the pid of the workload to the parent: a command is given, the
process is PID 1 (or built with `DEBUG`), and the signal mask and handler are
installed. -/
def Startup.launched (s : Startup) (pid : Nat) : Prop :=
  2 ≤ s.argc ∧ (s.debug = true ∨ s.getpid = 1) ∧ s.fork = (pid : Int) ∧ pid ≠ 0 ∧
    s.sigprocmask = 0 ∧ s.signal_err = false

/-- The values of `pid2_exitcode` after each pass of the reap loop of one call
of `reap_zombies` that makes its passes on the given outcomes of `wait()`,
reaped children and failures alike. -/
def exitcode_passes (g : Globals) (status : Int) : List WaitOutcome → List Int
  | [] => []
  | o :: rest =>
    (reap_body g status o).1.pid2_exitcode ::
      exitcode_passes (reap_body g status o).1 (reap_body g status o).2.2 rest

/-- One call of `reap_zombies` as the operating system shapes it: the value
its uninitialised local `status` starts with, the outcomes of `wait()` on which
it makes whole passes (for a call that returns, outcomes that end with its
first `ECHILD`; nothing below depends on that), and, when the SIGTERM handler
takes over inside a pass, the outcome of that pass and the point it had
reached. -/
structure ReapCall where
  status : Int
  outcomes : List WaitOutcome
  cut : Option (PassPoint × WaitOutcome)

/-- The globals when a call of `reap_zombies` is over: after its whole passes
and, if the handler took over inside a pass, that pass as far as it got. -/
def ReapCall.final (c : ReapCall) (g : Globals) : Globals :=
  match c.cut with
  | none => (reap_run g c.status c.outcomes).1
  | some (pt, o) =>
    pass_point pt (reap_run g c.status c.outcomes).1 (reap_run g c.status c.outcomes).2 o

/-- The values of `pid2_exitcode` after each pass of the reap loop, whole or
cut short, over a series of calls of `reap_zombies`. -/
def exitcode_calls (g : Globals) : List ReapCall → List Int
  | [] => []
  | c :: cs =>
    exitcode_passes g c.status c.outcomes ++
      ((match c.cut with
        | none => []
        | some _ => [(c.final g).pid2_exitcode]) ++ exitcode_calls (c.final g) cs)

/-- Whether an outcome of `wait()` is a reaped child whose pid is the value
stored in `pid2`. -/
def reports (pid2 : Int) : WaitOutcome → Bool
  | WaitOutcome.reaped p _ => decide ((p : Int) = pid2)
  | WaitOutcome.failed _ => false

/-- How many outcomes of a series of calls of `reap_zombies` are reaped
children whose pid is the value stored in `pid2`. -/
def workload_reports (pid2 : Int) : List ReapCall → Nat
  | [] => 0
  | c :: cs =>
    (c.outcomes.filter (reports pid2)).length +
      ((match c.cut with
        | none => 0
        | some (_, o) => if reports pid2 o then 1 else 0) + workload_reports pid2 cs)

/-- How many times a variable changed, given its successive values. -/
def changes : List Int → Nat
  | a :: b :: l => (if a = b then 0 else 1) + changes (b :: l)
  | _ => 0

/-- A start of `main` as PID 1 with a command, in which `fork` returns 2. -/
def startup_pid2 : Startup :=
  { argc := 2, debug := false, getpid := 1, fork := 2, sigprocmask := 0,
    signal_err := false, execvp := none, errno := 0, status := 0 }

/-- A start of `main` as PID 1 with a command, in which `fork` fails. -/
def startup_fork_fails : Startup :=
  { argc := 2, debug := false, getpid := 1, fork := -1, sigprocmask := 0,
    signal_err := false, execvp := none, errno := 0, status := 0 }

/-- The wait status of a child that exited normally with the given status,
as the kernel encodes it. -/
def exited (code : Int) : Int := code % 256 * 256

/-- The wait status of a child killed by the given signal, as the kernel
encodes it (no core dump). -/
def killed_by (sig : Int) : Int := sig % 128

/-- The return value of `kill_children(getpid())` in round `i` of
`terminate`: the number of processes signalled by that sweep. -/
def sweep_result (env : TermEnv) (i : Nat) : Int :=
  (kill_children (env.proc i) env.getpid).2

/-- The pids signalled by the sweep of round `i` of `terminate`. -/
def sweep_signals (env : TermEnv) (i : Nat) : List Int :=
  (kill_children (env.proc i) env.getpid).1

/-- The number of sweeps, among the first `TERM_ATTEMPTS`, that come before
the first empty one. -/
def nonempty_rounds (env : TermEnv) : Nat :=
  ((List.range TERM_ATTEMPTS).takeWhile (fun i => decide (sweep_result env i ≠ 0))).length

/-- The number of non-empty sweeps before the first empty one, counted from
round `TERM_ATTEMPTS - k` on. -/
def rounds_left (env : TermEnv) : Nat → Nat
  | 0 => 0
  | k + 1 => if sweep_result env (TERM_ATTEMPTS - (k + 1)) = 0 then 0 else rounds_left env k + 1

/-- The globals and the unconsumed outcomes after `m` calls of `reap_zombies`
in a row, the first of them in round `i`; `none` when one of them does not
return. -/
def reap_rounds (env : TermEnv) : Nat → Nat → Globals → List WaitOutcome →
    Option (Globals × List WaitOutcome)
  | _, 0, g, ws => some (g, ws)
  | i, m + 1, g, ws =>
    match reap_zombies g (env.status i) ws with
    | none => none
    | some (g1, ws1) => reap_rounds env (i + 1) m g1 ws1

/-- What a round of `terminate` with a non-empty sweep does: the sweep, the
`sleep(1)` and one call of `reap_zombies`. -/
def round_actions (env : TermEnv) (i : Nat) : List Action :=
  [Action.sweep (sweep_signals env i) (sweep_result env i), Action.sleep, Action.reap]

/-- The actions of a cascade of `n` rounds with a non-empty sweep starting
with round `i`, closed by the empty sweep when the budget of `TERM_ATTEMPTS`
rounds is not used up, and by `exit(code)`. -/
def cascade_actions (env : TermEnv) (i n : Nat) (code : Int) : List Action :=
  (List.range' i n).flatMap (round_actions env) ++
    (if i + n < TERM_ATTEMPTS then
      [Action.sweep (sweep_signals env (i + n)) (sweep_result env (i + n))] else []) ++
    [Action.exit code]

/-- Whether an action is a sweep of `/proc` (a call of `kill_children`). -/
def Action.is_sweep : Action → Bool
  | Action.sweep _ _ => true
  | _ => false

/-- Whether an action is a call of `reap_zombies`. -/
def Action.is_reap : Action → Bool
  | Action.reap => true
  | _ => false

/-- A `/proc` with PID 1 and one child of it, pid 7, besides two entries that
are not processes. -/
def proc_one_child : ProcFS :=
  procfs [⟨1, "pid1".toList, 'S', 0⟩, ⟨7, "sleep".toList, 'S', 1⟩]
    ["self".toList, "cpuinfo".toList] " 7 7 0 -1 4194304\n".toList

/-- A `/proc` in which PID 1 has no child. -/
def proc_no_child : ProcFS :=
  procfs [⟨1, "pid1".toList, 'S', 0⟩] ["self".toList, "cpuinfo".toList]
    " 1 1 0 -1 4194304\n".toList

/-- The environment of `terminate` when PID 1 has a child, pid 7, that ignores
SIGTERM and never exits: every sweep finds it. -/
def env_stubborn : TermEnv :=
  { getpid := 1, proc := fun _ => proc_one_child, status := fun _ => 0 }

/-- The environment of `terminate` when PID 1 has a child, pid 7, during the
first two sweeps and none from the third on. -/
def env_two_rounds : TermEnv :=
  { getpid := 1, proc := fun i => if i < 2 then proc_one_child else proc_no_child,
    status := fun _ => 0 }

/-- The environment of `terminate` when PID 1 has one child, the workload
(pid 7), which has a child of its own (pid 8): the first sweep finds the
workload; once the workload is dead the kernel hands pid 8 to PID 1, and a
later sweep would find it. -/
def env_grandchild : TermEnv :=
  { getpid := 1,
    proc := fun i =>
      if i = 0 then
        procfs [⟨1, "pid1".toList, 'S', 0⟩, ⟨7, "sh".toList, 'S', 1⟩, ⟨8, "sleep".toList, 'S', 7⟩]
          ["self".toList, "cpuinfo".toList] " 7 7 0 -1 4194304\n".toList
      else
        procfs [⟨1, "pid1".toList, 'S', 0⟩, ⟨8, "sleep".toList, 'S', 1⟩]
          ["self".toList, "cpuinfo".toList] " 7 7 0 -1 4194304\n".toList,
    status := fun _ => 0 }

/-- The environment of `terminate` when PID 1 has no child at any sweep. -/
def env_no_child : TermEnv :=
  { getpid := 1, proc := fun _ => proc_no_child, status := fun _ => 0 }

/-- The pids of the processes of a table whose parent is `pid`, in the order
of the table: the set `kill_children(pid)` is meant to signal. -/
def children (ps : List Process) (pid : Nat) : List Int :=
  (ps.filter (fun p => p.ppid == pid)).map (fun p => (p.pid : Int))

/-- The remaining fields of a `stat` record, as a kernel may print them. -/
def more_fields : List Char := " 44 44 0 -1 4194560 120 0 0 0\n".toList

/-- A process table: PID 1; its children 44 (whose command name, set by the
program itself, holds a blank) and 50; and 77, a child of 50 whose command
name is `a b 1`. -/
def table_blanks : List Process :=
  [⟨1, "pid1".toList, 'S', 0⟩, ⟨44, "tmux: server".toList, 'S', 1⟩, ⟨50, "sh".toList, 'S', 1⟩,
    ⟨77, "a b 1".toList, 'S', 50⟩]

/-- A process table: PID 1 and a child of it with a pid of seven digits. -/
def table_long_pid : List Process :=
  [⟨1, "pid1".toList, 'S', 0⟩, ⟨1234567, "sleep".toList, 'S', 1⟩]

/-- A process table `get_ppid` reads without fault: distinct pids of at most
six digits, parent pids that fit an `int`, command names without white space
and state letters that are not white space. -/
def plain_table (ps : List Process) : Prop :=
  (ps.map (fun p => p.pid)).Nodup ∧
    ∀ p ∈ ps, p.pid < 10 ^ 6 ∧ p.ppid < 2 ^ 31 ∧ (∀ c ∈ p.comm, isspace c = false) ∧
      isspace p.state = false

/-! ## Facts about the wait-status macros -/

theorem WIFEXITED_iff (st : Int) : WIFEXITED st = true ↔ WTERMSIG st = 0 := by
  simp [WIFEXITED]

theorem WIFSIGNALED_iff (st : Int) :
    WIFSIGNALED st = true ↔ 1 ≤ WTERMSIG st ∧ WTERMSIG st ≤ 126 := by
  simp only [WIFSIGNALED, WTERMSIG, signed_char, decide_eq_true_eq]
  split <;> omega

theorem not_WIFEXITED_of_WIFSIGNALED (st : Int) (h : WIFSIGNALED st = true) :
    WIFEXITED st = false := by
  have h1 := (WIFSIGNALED_iff st).1 h
  cases h2 : WIFEXITED st
  · rfl
  · have := (WIFEXITED_iff st).1 h2
    omega

/-! ## Facts about one pass of the reap loop -/

theorem reap_body_pid2 (g : Globals) (s : Int) (o : WaitOutcome) :
    (reap_body g s o).1.pid2 = g.pid2 := by
  cases o <;> simp only [reap_body, wait] <;> split <;> split <;> rfl

theorem reap_body_w_reaped (g : Globals) (s : Int) (pid : Nat) (st : Int) :
    (reap_body g s (WaitOutcome.reaped pid st)).2 = ((pid : Int), st) := rfl

theorem reap_body_w_failed (g : Globals) (s : Int) (e : Int) :
    (reap_body g s (WaitOutcome.failed e)).2 = (-1, s) := rfl

theorem reap_body_errno_failed (g : Globals) (s : Int) (e : Int) :
    (reap_body g s (WaitOutcome.failed e)).1.errno = e := by
  simp only [reap_body, wait]
  split <;> split <;> rfl

/-- The loop of `reap_zombies` goes on after every outcome but the failure
with `ECHILD`. -/
theorem reap_continue_iff (g : Globals) (s : Int) (o : WaitOutcome) :
    ((reap_body g s o).2.1 ≠ -1 ∨ (reap_body g s o).1.errno ≠ ECHILD) ↔
      o ≠ WaitOutcome.failed ECHILD := by
  cases o with
  | reaped pid st =>
    rw [reap_body_w_reaped]
    have h : (pid : Int) ≠ -1 := by omega
    simp [h]
  | failed e =>
    rw [reap_body_w_failed, reap_body_errno_failed]
    simp

/-- A reaped child with another pid than `pid2` changes no global. -/
theorem reap_body_other (g : Globals) (s : Int) (pid : Nat) (st : Int)
    (h : (pid : Int) ≠ g.pid2) :
    (reap_body g s (WaitOutcome.reaped pid st)).1 = g := by
  simp [reap_body, wait, h]

/-- A failed `wait()` changes nothing but `errno`, when `pid2` is not `-1`. -/
theorem reap_body_failed (g : Globals) (s : Int) (e : Int) (h : g.pid2 ≠ -1) :
    (reap_body g s (WaitOutcome.failed e)).1 = { g with errno := e } := by
  have h1 : ¬ ((-1 : Int) = g.pid2) := fun h2 => h h2.symm
  simp [reap_body, wait, h1]

/-- The workload exiting normally records its exit status. -/
theorem reap_body_exited (g : Globals) (s : Int) (pid : Nat) (st : Int)
    (h : (pid : Int) = g.pid2) (he : WIFEXITED st = true) :
    (reap_body g s (WaitOutcome.reaped pid st)).1 = { g with pid2_exitcode := WEXITSTATUS st } := by
  have h0 := (WIFEXITED_iff st).1 he
  have h1 : ¬ (WTERMSIG st = SIGTERM) := by rw [h0]; decide
  simp [reap_body, wait, h, he, h1]

/-- The workload killed by SIGTERM records 0. -/
theorem reap_body_sigterm (g : Globals) (s : Int) (pid : Nat) (st : Int)
    (h : (pid : Int) = g.pid2) (hs : WIFSIGNALED st = true) (ht : WTERMSIG st = SIGTERM) :
    (reap_body g s (WaitOutcome.reaped pid st)).1 = { g with pid2_exitcode := 0 } := by
  have he := not_WIFEXITED_of_WIFSIGNALED st hs
  simp [reap_body, wait, h, he, hs, ht]

/-- The workload killed by another signal than SIGTERM changes no global. -/
theorem reap_body_other_signal (g : Globals) (s : Int) (pid : Nat) (st : Int)
    (hs : WIFSIGNALED st = true) (ht : WTERMSIG st ≠ SIGTERM) :
    (reap_body g s (WaitOutcome.reaped pid st)).1 = g := by
  have he := not_WIFEXITED_of_WIFSIGNALED st hs
  simp [reap_body, wait, he, ht]

/-! ## Facts about `reap_zombies` -/

theorem reap_zombies_cons_ne (g : Globals) (s : Int) (o : WaitOutcome) (rest : List WaitOutcome)
    (h : o ≠ no_children) :
    reap_zombies g s (o :: rest) =
      reap_zombies (reap_body g s o).1 (reap_body g s o).2.2 rest := by
  have h1 := (reap_continue_iff g s o).2 h
  simp only [reap_zombies]
  rw [if_pos h1]

theorem reap_zombies_cons_no_children (g : Globals) (s : Int) (rest : List WaitOutcome) :
    reap_zombies g s (no_children :: rest) = some ((reap_body g s no_children).1, rest) := by
  have h1 : ¬ ((reap_body g s no_children).2.1 ≠ -1 ∨ (reap_body g s no_children).1.errno ≠ ECHILD) :=
    fun h => (reap_continue_iff g s no_children).1 h rfl
  simp only [reap_zombies]
  rw [if_neg h1]

theorem reap_zombies_append (pre rest : List WaitOutcome) :
    ∀ (g : Globals) (s : Int), (∀ o ∈ pre, o ≠ no_children) →
      reap_zombies g s (pre ++ rest) = reap_zombies (reap_run g s pre).1 (reap_run g s pre).2 rest := by
  induction pre with
  | nil => intro g s _; rfl
  | cons o pre ih =>
    intro g s h
    rw [List.cons_append, reap_zombies_cons_ne g s o _ (h o (List.mem_cons_self o pre))]
    rw [ih _ _ (fun x hx => h x (List.mem_cons_of_mem o hx))]
    rfl

theorem reap_zombies_none (ws : List WaitOutcome) :
    ∀ (g : Globals) (s : Int), (∀ o ∈ ws, o ≠ no_children) → reap_zombies g s ws = none := by
  intro g s h
  have := reap_zombies_append ws [] g s h
  rw [List.append_nil] at this
  rw [this]
  rfl

/-- The first failure with `ECHILD` splits a list of outcomes. -/
theorem split_no_children (ws : List WaitOutcome) (h : no_children ∈ ws) :
    ∃ pre rest, ws = pre ++ no_children :: rest ∧ ∀ o ∈ pre, o ≠ no_children := by
  induction ws with
  | nil => simp at h
  | cons o ws ih =>
    by_cases ho : o = no_children
    · exact ⟨[], ws, by simp [ho], by simp⟩
    · have h1 : no_children ∈ ws := by
        rcases List.mem_cons.1 h with h2 | h2
        · exact absurd h2.symm ho
        · exact h2
      obtain ⟨pre, rest, e, hp⟩ := ih h1
      refine ⟨o :: pre, rest, by simp [e], ?_⟩
      intro x hx
      rcases List.mem_cons.1 hx with h2 | h2
      · rw [h2]; exact ho
      · exact hp x h2

theorem reap_run_append (pre rest : List WaitOutcome) :
    ∀ (g : Globals) (s : Int),
      reap_run g s (pre ++ rest) = reap_run (reap_run g s pre).1 (reap_run g s pre).2 rest := by
  induction pre with
  | nil => intro g s; rfl
  | cons o pre ih => intro g s; exact ih _ _

theorem reap_run_pid2 (ws : List WaitOutcome) :
    ∀ (g : Globals) (s : Int), (reap_run g s ws).1.pid2 = g.pid2 := by
  induction ws with
  | nil => intro g s; rfl
  | cons o ws ih =>
    intro g s
    simp only [reap_run]
    rw [ih, reap_body_pid2]

theorem keeps_of_not_carried (pid : Nat) (o : WaitOutcome) (h : carries pid o = false) :
    keeps pid o = true := by
  cases o with
  | reaped p st =>
    simp only [carries, beq_eq_false_iff_ne, ne_eq] at h
    simp [keeps, h]
  | failed e => rfl

/-- An outcome that `keeps` the recorded exit code leaves it alone, when `pid2`
is the pid of the workload. -/
theorem reap_body_keeps (g : Globals) (s : Int) (pid : Nat) (o : WaitOutcome)
    (hg : g.pid2 = (pid : Int)) (ho : keeps pid o = true) :
    (reap_body g s o).1.pid2_exitcode = g.pid2_exitcode := by
  cases o with
  | reaped p st =>
    simp only [keeps, Bool.or_eq_true, bne_iff_ne, ne_eq, Bool.and_eq_true] at ho
    rcases ho with ho | ⟨h1, h2⟩
    · have hp : (p : Int) ≠ g.pid2 := by rw [hg]; omega
      rw [reap_body_other g s p st hp]
    · rw [reap_body_other_signal g s p st h1 h2]
  | failed e =>
    have hp : g.pid2 ≠ -1 := by rw [hg]; omega
    rw [reap_body_failed g s e hp]

theorem reap_run_keeps (pid : Nat) (ws : List WaitOutcome) :
    ∀ (g : Globals) (s : Int), g.pid2 = (pid : Int) → (∀ o ∈ ws, keeps pid o = true) →
      (reap_run g s ws).1.pid2_exitcode = g.pid2_exitcode := by
  induction ws with
  | nil => intro g s _ _; rfl
  | cons o ws ih =>
    intro g s hg h
    simp only [reap_run]
    rw [ih _ _ (by rw [reap_body_pid2]; exact hg) (fun x hx => h x (List.mem_cons_of_mem o hx))]
    exact reap_body_keeps g s pid o hg (h o (List.mem_cons_self o ws))

/-- The state in which `reap_zombies` returns, when the first `ECHILD` comes
after the outcomes `pre`. -/
theorem reap_zombies_first_no_children (pre rest : List WaitOutcome) (g : Globals) (s : Int)
    (h : ∀ o ∈ pre, o ≠ no_children) :
    reap_zombies g s (pre ++ no_children :: rest) =
      some ((reap_body (reap_run g s pre).1 (reap_run g s pre).2 no_children).1, rest) := by
  rw [reap_zombies_append pre _ g s h, reap_zombies_cons_no_children]

/-- Outcomes before the first `ECHILD` are passed over; `pid2` stays. -/
theorem reap_zombies_pass (pre l : List WaitOutcome) (g : Globals) (s : Int)
    (h : ∀ o ∈ pre, o ≠ no_children) :
    ∃ g1 s1, reap_zombies g s (pre ++ l) = reap_zombies g1 s1 l ∧ g1.pid2 = g.pid2 :=
  ⟨_, _, reap_zombies_append pre l g s h, reap_run_pid2 pre g s⟩

/-- Outcomes before the first `ECHILD` that keep the recorded exit code are
passed over and leave it alone. -/
theorem reap_zombies_pass_keep (pid : Nat) (pre l : List WaitOutcome) (g : Globals) (s : Int)
    (hg : g.pid2 = (pid : Int)) (h : ∀ o ∈ pre, o ≠ no_children)
    (hc : ∀ o ∈ pre, keeps pid o = true) :
    ∃ g1 s1, reap_zombies g s (pre ++ l) = reap_zombies g1 s1 l ∧ g1.pid2 = g.pid2 ∧
      g1.pid2_exitcode = g.pid2_exitcode :=
  ⟨_, _, reap_zombies_append pre l g s h, reap_run_pid2 pre g s,
    reap_run_keeps pid pre g s hg hc⟩

/-- The reap loop run to the first `ECHILD` over outcomes that keep the
recorded exit code returns with the code it started with. -/
theorem reap_zombies_keep (pid : Nat) (pre rest : List WaitOutcome) (g : Globals) (s : Int)
    (hg : g.pid2 = (pid : Int)) (h : ∀ o ∈ pre, o ≠ no_children)
    (hc : ∀ o ∈ pre, keeps pid o = true) :
    ∃ g1, reap_zombies g s (pre ++ no_children :: rest) = some (g1, rest) ∧ g1.pid2 = g.pid2 ∧
      g1.pid2_exitcode = g.pid2_exitcode := by
  obtain ⟨g1, s1, e, hp, hk⟩ := reap_zombies_pass_keep pid pre (no_children :: rest) g s hg h hc
  refine ⟨(reap_body g1 s1 no_children).1, ?_, ?_, ?_⟩
  · rw [e, reap_zombies_cons_no_children]
  · rw [reap_body_pid2, hp]
  · rw [reap_body_keeps g1 s1 pid no_children (by rw [hp, hg]) rfl, hk]

/-- The reap loop started on the workload's own termination and run to the
first `ECHILD`, with later outcomes that keep the recorded exit code,
returns with the code recorded at that termination. -/
theorem reap_zombies_event (pid : Nat) (st : Int) (post rest : List WaitOutcome) (g : Globals)
    (s : Int) (hg : g.pid2 = (pid : Int)) (h : ∀ o ∈ post, o ≠ no_children)
    (hc : ∀ o ∈ post, keeps pid o = true) :
    ∃ g1, reap_zombies g s (WaitOutcome.reaped pid st :: (post ++ no_children :: rest)) =
        some (g1, rest) ∧ g1.pid2 = g.pid2 ∧
      g1.pid2_exitcode = (reap_body g s (WaitOutcome.reaped pid st)).1.pid2_exitcode := by
  have hev : WaitOutcome.reaped pid st ≠ no_children := by simp [no_children]
  obtain ⟨g1, e, hp, hk⟩ := reap_zombies_keep pid post rest
    (reap_body g s (WaitOutcome.reaped pid st)).1 (reap_body g s (WaitOutcome.reaped pid st)).2.2
    (by rw [reap_body_pid2]; exact hg) h hc
  refine ⟨g1, ?_, ?_, hk⟩
  · rw [reap_zombies_cons_ne _ _ _ _ hev, e]
  · rw [hp, reap_body_pid2]

theorem main_launched (s : Startup) (pid : Nat) (ws : List WaitOutcome) (h : s.launched pid) :
    main s ws = (reap_zombies ⟨(pid : Int), 255, s.errno⟩ s.status ws).map
      (fun r => r.1.pid2_exitcode) := by
  obtain ⟨h1, h2, h3, h4, h5, h6⟩ := h
  have h7 : ¬ (s.argc < 2) := by omega
  have h8 : (!s.debug && s.getpid != 1) = false := by
    rcases h2 with h2 | h2 <;> simp [h2]
  have h9 : (pid : Int) ≠ 0 := by omega
  simp only [main, h7, h8, h3, h5, h6, if_false]
  simp only [ne_eq, h9, not_false_eq_true, if_true, not_true_eq_false, if_false]
  cases reap_zombies ⟨(pid : Int), 255, s.errno⟩ s.status ws <;> simp

/-! ## Facts about `terminate` -/

theorem count_no_children_split (pre rest : List WaitOutcome) (h : ∀ o ∈ pre, o ≠ no_children) :
    List.count no_children (pre ++ no_children :: rest) = List.count no_children rest + 1 := by
  have h0 : List.count no_children pre = 0 :=
    List.count_eq_zero.2 (fun hm => h no_children hm rfl)
  rw [List.count_append, List.count_cons_self, h0]
  omega

/-- When a `wait()` still fails with `ECHILD`, `reap_zombies` returns: it has
consumed the outcomes up to the first such failure. -/
theorem reap_zombies_returns (g : Globals) (s : Int) (ws : List WaitOutcome)
    (h : 0 < List.count no_children ws) :
    ∃ g1 pre rest, ws = pre ++ no_children :: rest ∧ (∀ o ∈ pre, o ≠ no_children) ∧
      reap_zombies g s ws = some (g1, rest) ∧ g1.pid2 = g.pid2 ∧
      List.count no_children ws = List.count no_children rest + 1 := by
  obtain ⟨pre, rest, e, hp⟩ := split_no_children ws (List.count_pos_iff.1 h)
  refine ⟨(reap_body (reap_run g s pre).1 (reap_run g s pre).2 no_children).1, pre, rest, e, hp,
    ?_, ?_, ?_⟩
  · rw [e]; exact reap_zombies_first_no_children pre rest g s hp
  · rw [reap_body_pid2, reap_run_pid2]
  · rw [e]; exact count_no_children_split pre rest hp

theorem reap_zombies_blocks (g : Globals) (s : Int) (ws : List WaitOutcome)
    (h : List.count no_children ws = 0) : reap_zombies g s ws = none :=
  reap_zombies_none ws g s (fun _ ho e => List.count_eq_zero.1 h (e ▸ ho))

theorem terminate_loop_empty (env : TermEnv) (k : Nat) (g : Globals) (ws : List WaitOutcome)
    (h : sweep_result env (TERM_ATTEMPTS - (k + 1)) = 0) :
    terminate_loop env (k + 1) g ws =
      ⟨[Action.sweep (sweep_signals env (TERM_ATTEMPTS - (k + 1)))
          (sweep_result env (TERM_ATTEMPTS - (k + 1))), Action.exit g.pid2_exitcode],
        some g.pid2_exitcode, g, ws⟩ := by
  unfold sweep_result at h
  simp only [terminate_loop, h, if_true, sweep_signals, sweep_result]

theorem terminate_loop_blocks (env : TermEnv) (k : Nat) (g : Globals) (ws : List WaitOutcome)
    (h : sweep_result env (TERM_ATTEMPTS - (k + 1)) ≠ 0)
    (hr : reap_zombies g (env.status (TERM_ATTEMPTS - (k + 1))) ws = none) :
    terminate_loop env (k + 1) g ws =
      ⟨round_actions env (TERM_ATTEMPTS - (k + 1)), none,
        (reap_run g (env.status (TERM_ATTEMPTS - (k + 1))) ws).1, []⟩ := by
  unfold sweep_result at h
  simp only [terminate_loop, h, if_false, hr, round_actions, sweep_signals, sweep_result]

theorem terminate_loop_round (env : TermEnv) (k : Nat) (g g1 : Globals) (ws ws1 : List WaitOutcome)
    (h : sweep_result env (TERM_ATTEMPTS - (k + 1)) ≠ 0)
    (hr : reap_zombies g (env.status (TERM_ATTEMPTS - (k + 1))) ws = some (g1, ws1)) :
    terminate_loop env (k + 1) g ws =
      ⟨round_actions env (TERM_ATTEMPTS - (k + 1)) ++ (terminate_loop env k g1 ws1).actions,
        (terminate_loop env k g1 ws1).exit, (terminate_loop env k g1 ws1).globals,
        (terminate_loop env k g1 ws1).rest⟩ := by
  unfold sweep_result at h
  simp only [terminate_loop, h, if_false, hr, round_actions, sweep_signals, sweep_result,
    List.cons_append, List.nil_append]

/-- With fewer `ECHILD` failures to come than rounds with a non-empty sweep,
`terminate` does not reach `exit`. -/
theorem terminate_loop_hangs (env : TermEnv) :
    ∀ (k : Nat) (g : Globals) (ws : List WaitOutcome),
      List.count no_children ws < rounds_left env k → (terminate_loop env k g ws).exit = none := by
  intro k
  induction k with
  | zero => intro g ws h; simp [rounds_left] at h
  | succ k ih =>
    intro g ws h
    by_cases hz : sweep_result env (TERM_ATTEMPTS - (k + 1)) = 0
    · simp [rounds_left, hz] at h
    · simp only [rounds_left, hz, if_false] at h
      by_cases hc : List.count no_children ws = 0
      · rw [terminate_loop_blocks env k g ws hz (reap_zombies_blocks g _ ws hc)]
      · obtain ⟨g1, pre, rest, _, _, hr, _, hcount⟩ :=
          reap_zombies_returns g (env.status (TERM_ATTEMPTS - (k + 1))) ws (by omega)
        rw [terminate_loop_round env k g g1 ws rest hz hr]
        exact ih g1 rest (by omega)

/-- With an `ECHILD` failure to come for every round with a non-empty sweep,
`terminate` does what `cascade_actions` lists and exits with the exit code
recorded after the last `reap_zombies`. -/
theorem terminate_loop_exits (env : TermEnv) :
    ∀ (k : Nat) (g : Globals) (ws : List WaitOutcome), k ≤ TERM_ATTEMPTS →
      rounds_left env k ≤ List.count no_children ws →
      ∃ g1 ws1, reap_rounds env (TERM_ATTEMPTS - k) (rounds_left env k) g ws = some (g1, ws1) ∧
        (terminate_loop env k g ws).actions =
          cascade_actions env (TERM_ATTEMPTS - k) (rounds_left env k) g1.pid2_exitcode ∧
        (terminate_loop env k g ws).exit = some g1.pid2_exitcode ∧
        (terminate_loop env k g ws).globals = g1 ∧ (terminate_loop env k g ws).rest = ws1 := by
  intro k
  induction k with
  | zero =>
    intro g ws _ _
    exact ⟨g, ws, rfl, by simp [terminate_loop, cascade_actions, rounds_left], rfl, rfl, rfl⟩
  | succ k ih =>
    intro g ws hk h
    by_cases hz : sweep_result env (TERM_ATTEMPTS - (k + 1)) = 0
    · have hlt : TERM_ATTEMPTS - (k + 1) < TERM_ATTEMPTS := by omega
      refine ⟨g, ws, by simp [rounds_left, hz, reap_rounds], ?_, ?_, ?_, ?_⟩ <;>
        rw [terminate_loop_empty env k g ws hz]
      simp [cascade_actions, rounds_left, hz, hlt]
    · simp only [rounds_left, hz, if_false] at h ⊢
      obtain ⟨g1, pre, rest, _, _, hr, _, hcount⟩ :=
        reap_zombies_returns g (env.status (TERM_ATTEMPTS - (k + 1))) ws (by omega)
      obtain ⟨g2, ws2, h1, h2, h3, h4, h5⟩ := ih g1 rest (by omega) (by omega)
      have hi : TERM_ATTEMPTS - (k + 1) + 1 = TERM_ATTEMPTS - k := by omega
      refine ⟨g2, ws2, ?_, ?_, ?_, ?_, ?_⟩
      · simp only [reap_rounds, hr, hi]
        exact h1
      · rw [terminate_loop_round env k g g1 ws rest hz hr]
        simp only [h2, cascade_actions, List.range'_succ, List.flatMap_cons, hi, List.append_assoc]
        have hj : TERM_ATTEMPTS - (k + 1) + (rounds_left env k + 1) =
            TERM_ATTEMPTS - k + rounds_left env k := by omega
        rw [hj]
      · rw [terminate_loop_round env k g g1 ws rest hz hr]; exact h3
      · rw [terminate_loop_round env k g g1 ws rest hz hr]; exact h4
      · rw [terminate_loop_round env k g g1 ws rest hz hr]; exact h5

/-! ## The number of rounds of `terminate` -/

theorem takeWhile_rounds (env : TermEnv) :
    ∀ k : Nat, k ≤ TERM_ATTEMPTS →
      ((List.range' (TERM_ATTEMPTS - k) k).takeWhile
        (fun i => decide (sweep_result env i ≠ 0))).length = rounds_left env k := by
  intro k
  induction k with
  | zero => intro _; rfl
  | succ k ih =>
    intro hk
    have hi : TERM_ATTEMPTS - (k + 1) + 1 = TERM_ATTEMPTS - k := by omega
    rw [List.range'_succ, hi]
    by_cases hz : sweep_result env (TERM_ATTEMPTS - (k + 1)) = 0
    · simp [rounds_left, hz]
    · simp only [rounds_left, hz, if_false]
      rw [List.takeWhile_cons_of_pos (by simpa using hz), List.length_cons, ih (by omega)]

theorem nonempty_rounds_eq (env : TermEnv) :
    nonempty_rounds env = rounds_left env TERM_ATTEMPTS := by
  have h := takeWhile_rounds env TERM_ATTEMPTS (Nat.le_refl _)
  rw [Nat.sub_self] at h
  rw [← h, nonempty_rounds, List.range_eq_range']

/-- The count of non-empty sweeps from round `TERM_ATTEMPTS - k` on, when the
sweeps before round `j` are non-empty and the sweep of round `j`, if within
the budget, is empty. -/
theorem rounds_left_eq (env : TermEnv) (j : Nat)
    (hne : ∀ i, i < j → sweep_result env i ≠ 0)
    (hz : j < TERM_ATTEMPTS → sweep_result env j = 0) :
    ∀ k : Nat, k ≤ TERM_ATTEMPTS → TERM_ATTEMPTS - k ≤ j →
      rounds_left env k = min TERM_ATTEMPTS j - (TERM_ATTEMPTS - k) := by
  intro k
  induction k with
  | zero => intro _ h; simp only [rounds_left]; omega
  | succ k ih =>
    intro hk hj
    by_cases hjk : j = TERM_ATTEMPTS - (k + 1)
    · have h0 := hz (by omega)
      rw [hjk] at h0
      simp only [rounds_left, h0, if_true]
      omega
    · have h1 := hne (TERM_ATTEMPTS - (k + 1)) (by omega)
      simp only [rounds_left, h1, if_false]
      rw [ih (by omega) (by omega)]
      omega

theorem nonempty_rounds_eq_min (env : TermEnv) (j : Nat)
    (hne : ∀ i, i < j → sweep_result env i ≠ 0)
    (hz : j < TERM_ATTEMPTS → sweep_result env j = 0) :
    nonempty_rounds env = min TERM_ATTEMPTS j := by
  rw [nonempty_rounds_eq, rounds_left_eq env j hne hz TERM_ATTEMPTS (Nat.le_refl _) (by omega)]
  omega

/-! ## The sweeps of `kill_children` -/

theorem kill_entry_length (fs : ProcFS) (pid : Int) (acc : List Int × Int) (d : List Char)
    (h : acc.2 = (acc.1.length : Int)) :
    (kill_entry fs pid acc d).2 = ((kill_entry fs pid acc d).1.length : Int) := by
  unfold kill_entry
  split
  · exact h
  · split
    · simp [h]
    · exact h

theorem foldl_kill_entry_length (fs : ProcFS) (pid : Int) (items : List (List Char)) :
    ∀ acc : List Int × Int, acc.2 = (acc.1.length : Int) →
      (items.foldl (kill_entry fs pid) acc).2 =
        ((items.foldl (kill_entry fs pid) acc).1.length : Int) := by
  induction items with
  | nil => intro acc h; exact h
  | cons d items ih =>
    intro acc h
    exact ih _ (kill_entry_length fs pid acc d h)

/-- The return value of `kill_children` is the number of signals it sent. -/
theorem kill_children_length (fs : ProcFS) (pid : Int) :
    (kill_children fs pid).2 = ((kill_children fs pid).1.length : Int) := by
  unfold kill_children
  split
  · rfl
  · exact foldl_kill_entry_length fs pid _ _ rfl

/-- An empty sweep signals no process. -/
theorem sweep_signals_of_empty (env : TermEnv) (i : Nat) (h : sweep_result env i = 0) :
    sweep_signals env i = [] := by
  have h1 := kill_children_length (env.proc i) env.getpid
  unfold sweep_result at h
  rw [h] at h1
  unfold sweep_signals
  exact List.length_eq_zero.1 (by omega)

/-! ## The actions of a cascade -/

theorem filter_sweep_rounds (env : TermEnv) (n : Nat) :
    ∀ i : Nat, (((List.range' i n).flatMap (round_actions env)).filter Action.is_sweep).length = n ∧
      (((List.range' i n).flatMap (round_actions env)).filter Action.is_reap).length = n := by
  induction n with
  | zero => intro i; simp
  | succ n ih =>
    intro i
    rw [List.range'_succ, List.flatMap_cons, List.filter_append, List.filter_append,
      List.length_append, List.length_append, (ih (i + 1)).1, (ih (i + 1)).2]
    simp [round_actions, Action.is_sweep, Action.is_reap, List.filter]
    omega

/-- A cascade of `n` full rounds holds `n` calls of `reap_zombies` and `n`
sweeps, one more when it is closed by an empty sweep. -/
theorem cascade_actions_count (env : TermEnv) (i n : Nat) (code : Int) :
    ((cascade_actions env i n code).filter Action.is_sweep).length =
        (if i + n < TERM_ATTEMPTS then n + 1 else n) ∧
      ((cascade_actions env i n code).filter Action.is_reap).length = n := by
  unfold cascade_actions
  rw [List.filter_append, List.filter_append, List.filter_append, List.filter_append,
    List.length_append, List.length_append, List.length_append, List.length_append,
    (filter_sweep_rounds env n i).1, (filter_sweep_rounds env n i).2]
  split <;> simp [Action.is_sweep, Action.is_reap, List.filter]

/-! ## The exit code of `terminate` -/

/-- Over outcomes that keep the recorded exit code, `terminate` exits with the
code it was entered with. -/
theorem terminate_loop_keeps (env : TermEnv) (pid : Nat) :
    ∀ (k : Nat) (g : Globals) (ws : List WaitOutcome), g.pid2 = (pid : Int) →
      (∀ o ∈ ws, keeps pid o = true) → rounds_left env k ≤ List.count no_children ws →
      (terminate_loop env k g ws).exit = some g.pid2_exitcode := by
  intro k
  induction k with
  | zero => intro g ws _ _ _; rfl
  | succ k ih =>
    intro g ws hg hk h
    by_cases hz : sweep_result env (TERM_ATTEMPTS - (k + 1)) = 0
    · rw [terminate_loop_empty env k g ws hz]
    · simp only [rounds_left, hz, if_false] at h
      obtain ⟨g1, pre, rest, e, hp, hr, _, hcount⟩ :=
        reap_zombies_returns g (env.status (TERM_ATTEMPTS - (k + 1))) ws (by omega)
      have hkpre : ∀ o ∈ pre, keeps pid o = true :=
        fun o ho => hk o (by rw [e]; exact List.mem_append_left _ ho)
      have hkrest : ∀ o ∈ rest, keeps pid o = true :=
        fun o ho => hk o (by rw [e]; exact List.mem_append_right _ (List.mem_cons_of_mem _ ho))
      obtain ⟨g2, hr2, hp2, hc2⟩ := reap_zombies_keep pid pre rest g
        (env.status (TERM_ATTEMPTS - (k + 1))) hg hp hkpre
      rw [e] at hr
      rw [hr2] at hr
      have hg12 : g2 = g1 := by injection hr with hr; injection hr
      subst hg12
      rw [terminate_loop_round env k g g2 ws rest hz (by rw [e]; exact hr2)]
      rw [ih g2 rest (by rw [hp2, hg]) hkrest (by omega), hc2]

/-- When the workload's termination is among the outcomes `terminate`
consumes and the later ones keep the recorded exit code, `terminate` exits
with the code recorded at that termination. -/
theorem terminate_loop_event (env : TermEnv) (pid : Nat) (st : Int) (c : Int)
    (hc : ∀ (g : Globals) (s : Int), g.pid2 = (pid : Int) →
      (reap_body g s (WaitOutcome.reaped pid st)).1.pid2_exitcode = c) :
    ∀ (k : Nat) (g : Globals) (pre post : List WaitOutcome), g.pid2 = (pid : Int) →
      (∀ o ∈ post, keeps pid o = true) →
      List.count no_children pre < rounds_left env k →
      rounds_left env k ≤ List.count no_children (pre ++ post) →
      (terminate_loop env k g (pre ++ WaitOutcome.reaped pid st :: post)).exit = some c := by
  intro k
  induction k with
  | zero => intro g pre post _ _ h _; simp [rounds_left] at h
  | succ k ih =>
    intro g pre post hg hk hlt hle
    by_cases hz : sweep_result env (TERM_ATTEMPTS - (k + 1)) = 0
    · simp [rounds_left, hz] at hlt
    · simp only [rounds_left, hz, if_false] at hlt hle
      rw [List.count_append] at hle
      by_cases h0 : List.count no_children pre = 0
      · have hpre : ∀ o ∈ pre, o ≠ no_children :=
          fun _ ho e => List.count_eq_zero.1 h0 (e ▸ ho)
        obtain ⟨post1, post2, e, hp⟩ :=
          split_no_children post (List.count_pos_iff.1 (by omega))
        have hcount := count_no_children_split post1 post2 hp
        rw [← e] at hcount
        obtain ⟨g1, s1, e1, hp1⟩ := reap_zombies_pass pre
          (WaitOutcome.reaped pid st :: (post1 ++ no_children :: post2)) g
          (env.status (TERM_ATTEMPTS - (k + 1))) hpre
        obtain ⟨g2, e2, hp2, hc2⟩ := reap_zombies_event pid st post1 post2 g1 s1
          (by rw [hp1, hg]) hp
          (fun o ho => hk o (by rw [e]; exact List.mem_append_left _ ho))
        rw [e, terminate_loop_round env k g g2 _ post2 hz (by rw [e1, e2])]
        rw [terminate_loop_keeps env pid k g2 post2 (by rw [hp2, hp1, hg])
          (fun o ho => hk o (by rw [e]; exact List.mem_append_right _ (List.mem_cons_of_mem _ ho)))
          (by omega), hc2, hc g1 s1 (by rw [hp1, hg])]
      · obtain ⟨pre1, pre2, e, hp⟩ :=
          split_no_children pre (List.count_pos_iff.1 (by omega))
        have hcount := count_no_children_split pre1 pre2 hp
        rw [← e] at hcount
        have hr := reap_zombies_first_no_children pre1
          (pre2 ++ WaitOutcome.reaped pid st :: post) g (env.status (TERM_ATTEMPTS - (k + 1))) hp
        have hws : pre ++ WaitOutcome.reaped pid st :: post =
            pre1 ++ no_children :: (pre2 ++ WaitOutcome.reaped pid st :: post) := by
          rw [e]; simp
        rw [hws, terminate_loop_round env k g _ _ _ hz hr]
        exact ih _ pre2 post (by rw [reap_body_pid2, reap_run_pid2, hg]) hk (by omega)
          (by rw [List.count_append]; omega)

/-! ## The sweep of `/proc` -/

/-- The sweep signals the entries whose name starts with a digit and for which
`get_ppid` returns `pid`, in the order of the listing, and counts them. -/
theorem kill_children_eq_filter (fs : ProcFS) (pid : Int) (items : List (List Char))
    (h : fs.dir = some items) :
    (kill_children fs pid).1 =
      (items.filter (fun d => isdigit (first_char d) && decide (get_ppid fs d = pid))).map atoi := by
  have key : ∀ (l : List (List Char)) (acc : List Int × Int),
      (l.foldl (kill_entry fs pid) acc).1 = acc.1 ++
        (l.filter (fun d => isdigit (first_char d) && decide (get_ppid fs d = pid))).map atoi := by
    intro l
    induction l with
    | nil => intro acc; simp
    | cons d l ih =>
      intro acc
      rw [List.foldl_cons, ih]
      unfold kill_entry
      by_cases h1 : isdigit (first_char d) = true
      · by_cases h2 : get_ppid fs d = pid
        · simp [h1, h2, List.filter_cons]
        · simp [h1, h2, List.filter_cons]
      · simp [h1, List.filter_cons]
  unfold kill_children
  rw [h]
  simpa using key items ([], 0)

/-! ## Where `get_ppid` is right -/

theorem digitChar_isdigit (k : Nat) (h : k < 10) :
    isdigit (Nat.digitChar k) = true ∧ ((Nat.digitChar k).toNat : Int) - 48 = (k : Int) := by
  interval_cases k <;> decide

theorem digits_value_concat (ds : List Char) (d : Char) :
    digits_value (ds ++ [d]) = 10 * digits_value ds + ((d.toNat : Int) - 48) := by
  simp [digits_value, List.foldl_append]

/-- The digits core's `toDigitsCore` puts in front of `ds`, with fuel enough
for `n`: a non-empty run of decimal digits whose value is `n`. -/
theorem toDigitsCore_spec :
    ∀ (fuel n : Nat), n < fuel → ∃ D : List Char, D ≠ [] ∧ (∀ c ∈ D, isdigit c = true) ∧
      digits_value D = (n : Int) ∧ ∀ ds, Nat.toDigitsCore 10 fuel n ds = D ++ ds := by
  intro fuel
  induction fuel with
  | zero => intro n h; omega
  | succ fuel ih =>
    intro n h
    have hd := digitChar_isdigit (n % 10) (Nat.mod_lt n (by decide))
    by_cases h0 : n / 10 = 0
    · refine ⟨[Nat.digitChar (n % 10)], by simp, ?_, ?_, ?_⟩
      · intro c hc
        rw [List.mem_singleton.1 hc]
        exact hd.1
      · have := digits_value_concat [] (Nat.digitChar (n % 10))
        simp only [List.nil_append] at this
        rw [this, hd.2]
        simp only [digits_value, List.foldl_nil]
        omega
      · intro ds
        simp [Nat.toDigitsCore, h0]
    · obtain ⟨D, h1, h2, h3, h4⟩ := ih (n / 10) (by omega)
      refine ⟨D ++ [Nat.digitChar (n % 10)], by simp, ?_, ?_, ?_⟩
      · intro c hc
        rcases List.mem_append.1 hc with hc | hc
        · exact h2 c hc
        · rw [List.mem_singleton.1 hc]
          exact hd.1
      · rw [digits_value_concat, h3, hd.2]
        omega
      · intro ds
        simp [Nat.toDigitsCore, h0, h4]

/-- The decimal digits of `n`: a non-empty run of digits of value `n`. -/
theorem decimal_spec (n : Nat) :
    decimal n ≠ [] ∧ (∀ c ∈ decimal n, isdigit c = true) ∧ digits_value (decimal n) = (n : Int) := by
  obtain ⟨D, h1, h2, h3, h4⟩ := toDigitsCore_spec (n + 1) n (Nat.lt_succ_self n)
  have : decimal n = D := by
    unfold decimal Nat.toDigits
    rw [h4, List.append_nil]
  rw [this]
  exact ⟨h1, h2, h3⟩

theorem decimal_length (n e : Nat) (h : n < 10 ^ e) (he : 0 < e) : (decimal n).length ≤ e :=
  Nat.toDigitsCore_length 10 (by decide) (n + 1) n e h he

theorem takeWhile_run {p : Char → Bool} (l : List Char) (rest : List Char)
    (hl : ∀ c ∈ l, p c = true) (hr : ∀ c, rest.head? = some c → p c = false) :
    (l ++ rest).takeWhile p = l ∧ (l ++ rest).dropWhile p = rest := by
  induction l with
  | nil =>
    cases rest with
    | nil => simp
    | cons c rest =>
      have := hr c rfl
      simp [List.takeWhile, List.dropWhile, this]
  | cons a l ih =>
    have ha := hl a (List.mem_cons_self a l)
    have := ih (fun c hc => hl c (List.mem_cons_of_mem a hc))
    simp [List.takeWhile, List.dropWhile, ha, this]

theorem skip_ws_of_not_space (c : Char) (l : List Char) (h : isspace c = false) :
    skip_ws (c :: l) = c :: l := by
  simp [skip_ws, h]

theorem isdigit_not_special (c : Char) (h : isdigit c = true) :
    isspace c = false ∧ c ≠ '-' ∧ c ≠ '+' := by
  simp only [isdigit, Bool.and_eq_true, decide_eq_true_eq] at h
  refine ⟨?_, ?_, ?_⟩
  · simp only [isspace, Bool.or_eq_false_iff, beq_eq_false_iff_ne, ne_eq, Bool.and_eq_false_imp,
      decide_eq_true_eq, decide_eq_false_iff_not]
    omega
  · intro e
    rw [e] at h
    revert h
    decide
  · intro e
    rw [e] at h
    revert h
    decide

/-- The conversion to `int` leaves a number below `2 ^ 31` alone. -/
theorem to_int_small (n : Nat) (h : n < 2 ^ 31) : to_int (n : Int) = (n : Int) := by
  unfold to_int
  have h1 : ((n : Int)) < 2 ^ 31 := by exact_mod_cast h
  simp only
  omega

/-- The conversion `%d` on the decimal digits of `n`, followed by something
that does not start with a digit, yields `n` and leaves what follows. -/
theorem scan_d_decimal (n : Nat) (rest : List Char) (h : n < 2 ^ 31)
    (hr : ∀ c, rest.head? = some c → isdigit c = false) :
    scan_d (decimal n ++ rest) = some ((n : Int), rest) := by
  obtain ⟨h1, h2, h3⟩ := decimal_spec n
  obtain ⟨c, l, hcl⟩ := List.exists_cons_of_ne_nil h1
  have hc := isdigit_not_special c (h2 c (by rw [hcl]; exact List.mem_cons_self c l))
  have htw := takeWhile_run (decimal n) rest h2 hr
  have hskip : skip_ws (decimal n ++ rest) = decimal n ++ rest := by
    rw [hcl, List.cons_append]
    exact skip_ws_of_not_space c _ hc.1
  have hsign : take_sign (decimal n ++ rest) = (false, decimal n ++ rest) := by
    rw [hcl, List.cons_append]
    simp [take_sign, hc.2.1, hc.2.2]
  unfold scan_d
  rw [hskip, hsign]
  simp only [htw.1, htw.2, h1, if_false, h3, Bool.false_eq_true]
  rw [to_int_small n h]

theorem skip_ws_decimal (n : Nat) (rest : List Char) :
    skip_ws (decimal n ++ rest) = decimal n ++ rest := by
  obtain ⟨h1, h2, _⟩ := decimal_spec n
  obtain ⟨c, l, hcl⟩ := List.exists_cons_of_ne_nil h1
  have hc := isdigit_not_special c (h2 c (by rw [hcl]; exact List.mem_cons_self c l))
  rw [hcl, List.cons_append]
  exact skip_ws_of_not_space c _ hc.1

theorem skip_ws_space (l : List Char) : skip_ws (' ' :: l) = skip_ws l := by
  have hsp : isspace ' ' = true := by decide
  simp [skip_ws, hsp]

theorem stat_record_eq (p : Process) (more : List Char) :
    stat_record p more =
      decimal p.pid ++ (' ' :: ('(' :: p.comm ++ [')']) ++
        (' ' :: p.state :: ' ' :: (decimal p.ppid ++ more))) := by
  have e1 : " (".toList = [' ', '('] := rfl
  have e2 : ") ".toList = [')', ' '] := rfl
  have e3 : " ".toList = [' '] := rfl
  simp only [stat_record, e1, e2, e3, List.append_assoc, List.cons_append, List.nil_append]

/-- The parse of line 52 on a record of the kernel's layout whose command name
holds no white space: the parent pid. -/
theorem fscanf_ppid_record (p : Process) (more : List Char)
    (hpid : p.pid < 2 ^ 31) (hppid : p.ppid < 2 ^ 31)
    (hcomm : ∀ c ∈ p.comm, isspace c = false) (hstate : isspace p.state = false)
    (hmore : ∀ c, more.head? = some c → isdigit c = false) :
    fscanf_ppid (stat_record p more) = some (p.ppid : Int) := by
  have h1 := scan_d_decimal p.pid
    (' ' :: ('(' :: p.comm ++ [')']) ++ (' ' :: p.state :: ' ' :: (decimal p.ppid ++ more))) hpid
    (by intro c hc; simp only [List.cons_append, List.head?_cons, Option.some.injEq] at hc
        rw [← hc]; decide)
  have h2 := takeWhile_run (p := fun c => !isspace c) ('(' :: p.comm ++ [')'])
    (' ' :: p.state :: ' ' :: (decimal p.ppid ++ more))
    (by
      intro c hc
      rcases List.mem_append.1 hc with hc | hc
      · rcases List.mem_cons.1 hc with hc | hc
        · rw [hc]; decide
        · simp [hcomm c hc]
      · rw [List.mem_singleton.1 hc]; decide)
    (by intro c hc; simp only [List.head?_cons, Option.some.injEq] at hc
        rw [← hc]; decide)
  have h3 := scan_d_decimal p.ppid more hppid hmore
  have h4 : skip_ws (('(' :: p.comm ++ [')']) ++
      (' ' :: p.state :: ' ' :: (decimal p.ppid ++ more))) =
      ('(' :: p.comm ++ [')']) ++ (' ' :: p.state :: ' ' :: (decimal p.ppid ++ more)) := by
    rw [List.cons_append, List.cons_append]
    exact skip_ws_of_not_space '(' _ (by decide)
  have h5 : ('(' :: p.comm ++ [')']) ≠ [] := by simp
  have f2 : scan_s (skip_ws (' ' :: ('(' :: p.comm ++ [')']) ++
      (' ' :: p.state :: ' ' :: (decimal p.ppid ++ more)))) =
      some (' ' :: p.state :: ' ' :: (decimal p.ppid ++ more)) := by
    rw [List.cons_append ' ', skip_ws_space, h4]
    unfold scan_s
    rw [h4]
    simp only [h2.1, h2.2, h5, if_false]
  have f3 : scan_c (skip_ws (' ' :: p.state :: ' ' :: (decimal p.ppid ++ more))) =
      some (' ' :: (decimal p.ppid ++ more)) := by
    rw [skip_ws_space, skip_ws_of_not_space p.state _ hstate]
    rfl
  have f4 : scan_d (skip_ws (' ' :: (decimal p.ppid ++ more))) = some ((p.ppid : Int), more) := by
    rw [skip_ws_space, skip_ws_decimal, h3]
  rw [stat_record_eq]
  simp only [fscanf_ppid, h1, f2, f3, f4]

/-- The path built on line 48 is the path of the `stat` file when the pid has
at most six digits. -/
theorem fname_decimal (p : Process) (h : p.pid < 10 ^ 6) :
    fname (decimal p.pid) = stat_path p := by
  have hl := decimal_length p.pid 6 h (by decide)
  have e1 : "/proc/".toList.length = 6 := rfl
  have e2 : "/stat".toList.length = 5 := rfl
  unfold fname stat_path
  apply List.take_of_length_le
  rw [List.length_append, List.length_append, e1, e2]
  omega

/-- Within these bounds `get_ppid` is right: for a process with a pid of at
most six digits and a command name without white space whose `stat` file is
readable and has the kernel's layout, it returns the parent pid. -/
theorem get_ppid_record (fs : ProcFS) (p : Process) (more : List Char)
    (hfile : fs.file (stat_path p) = some (stat_record p more))
    (hpid : p.pid < 10 ^ 6) (hppid : p.ppid < 2 ^ 31)
    (hcomm : ∀ c ∈ p.comm, isspace c = false) (hstate : isspace p.state = false)
    (hmore : ∀ c, more.head? = some c → isdigit c = false) :
    get_ppid fs (decimal p.pid) = (p.ppid : Int) := by
  unfold get_ppid
  rw [fname_decimal p hpid, hfile]
  simp only
  rw [fscanf_ppid_record p more (by omega) hppid hcomm hstate hmore]

/-! ## Where `kill_children` is right -/

theorem decimal_injective (a b : Nat) (h : decimal a = decimal b) : a = b := by
  have h1 := (decimal_spec a).2.2
  have h2 := (decimal_spec b).2.2
  rw [h] at h1
  omega

theorem stat_path_injective (p q : Process) (h : stat_path p = stat_path q) : p.pid = q.pid := by
  unfold stat_path at h
  have h1 := List.append_cancel_right h
  exact decimal_injective _ _ (List.append_cancel_left h1)

theorem find_stat_path (ps : List Process) (p : Process)
    (hn : (ps.map (fun p => p.pid)).Nodup) (hp : p ∈ ps) :
    ps.find? (fun q => decide (stat_path q = stat_path p)) = some p := by
  induction ps with
  | nil => simp at hp
  | cons q ps ih =>
    rw [List.map_cons, List.nodup_cons] at hn
    by_cases hq : stat_path q = stat_path p
    · have hpid := stat_path_injective q p hq
      rcases List.mem_cons.1 hp with h | h
      · rw [h]; simp
      · exact absurd (List.mem_map.2 ⟨p, h, hpid.symm⟩) hn.1
    · rcases List.mem_cons.1 hp with h | h
      · exact absurd (by rw [h]) hq
      · rw [List.find?_cons_of_neg _ (by simpa using hq)]
        exact ih hn.2 h

theorem atoi_decimal (n : Nat) (h : n < 2 ^ 31) : atoi (decimal n) = (n : Int) := by
  obtain ⟨h1, h2, h3⟩ := decimal_spec n
  obtain ⟨c, l, hcl⟩ := List.exists_cons_of_ne_nil h1
  have hc := isdigit_not_special c (h2 c (by rw [hcl]; exact List.mem_cons_self c l))
  have htw := takeWhile_run (decimal n) [] h2 (by simp)
  rw [List.append_nil] at htw
  have hskip := skip_ws_decimal n []
  rw [List.append_nil] at hskip
  have hsign : take_sign (decimal n) = (false, decimal n) := by
    rw [hcl]
    simp [take_sign, hc.2.1, hc.2.2]
  unfold atoi
  rw [hskip, hsign]
  simp only [htw.1, h3, Bool.false_eq_true, if_false]
  exact to_int_small n h

theorem first_char_decimal (n : Nat) : isdigit (first_char (decimal n)) = true := by
  obtain ⟨h1, h2, _⟩ := decimal_spec n
  obtain ⟨c, l, hcl⟩ := List.exists_cons_of_ne_nil h1
  rw [hcl]
  exact h2 c (by rw [hcl]; exact List.mem_cons_self c l)

/-- In the `/proc` of a plain process table, `get_ppid` on the directory of a
process returns its parent pid. -/
theorem get_ppid_table (ps : List Process) (others : List (List Char)) (more : List Char)
    (p : Process) (hps : plain_table ps) (hp : p ∈ ps)
    (hmore : ∀ c, more.head? = some c → isdigit c = false) :
    get_ppid (procfs ps others more) (decimal p.pid) = (p.ppid : Int) := by
  obtain ⟨h1, h2, h3, h4⟩ := hps.2 p hp
  apply get_ppid_record (procfs ps others more) p more ?_ h1 h2 h3 h4 hmore
  simp only [procfs]
  rw [find_stat_path ps p hps.1 hp]
  rfl

/-- In the `/proc` of a plain process table, whose other entries do not start
with a digit, `kill_children(pid)` signals exactly the processes whose parent
is `pid`, once each, each by its own pid, and returns their number. -/
theorem kill_children_table (ps : List Process) (others : List (List Char)) (more : List Char)
    (pid : Nat) (hps : plain_table ps)
    (hothers : ∀ d ∈ others, isdigit (first_char d) = false)
    (hmore : ∀ c, more.head? = some c → isdigit c = false) :
    kill_children (procfs ps others more) (pid : Int) =
      (children ps pid, ((children ps pid).length : Int)) := by
  have hsig : (kill_children (procfs ps others more) (pid : Int)).1 = children ps pid := by
    rw [kill_children_eq_filter (procfs ps others more) (pid : Int)
      (others ++ ps.map (fun p => decimal p.pid)) rfl, List.filter_append]
    have ho : others.filter (fun d => isdigit (first_char d) &&
        decide (get_ppid (procfs ps others more) d = (pid : Int))) = [] := by
      rw [List.filter_eq_nil_iff]
      intro d hd
      simp [hothers d hd]
    rw [ho, List.nil_append, List.filter_map, List.map_map]
    unfold children
    have hf : ps.filter ((fun d => isdigit (first_char d) &&
        decide (get_ppid (procfs ps others more) d = (pid : Int))) ∘ fun p => decimal p.pid) =
        ps.filter (fun p => p.ppid == pid) := by
      apply List.filter_congr
      intro p hp
      simp only [Function.comp, first_char_decimal, Bool.true_and,
        get_ppid_table ps others more p hps hp hmore]
      by_cases h : p.ppid = pid
      · simp [h]
      · have h1 : ¬ ((p.ppid : Int) = (pid : Int)) := by omega
        simp [h, h1]
    rw [hf]
    apply List.map_congr_left
    intro p hp
    have hp1 := hps.2 p (List.mem_of_mem_filter hp)
    exact atoi_decimal p.pid (by omega)
  have hlen := kill_children_length (procfs ps others more) (pid : Int)
  rw [hsig] at hlen
  exact Prod.ext hsig hlen

/-! ## The points inside a pass -/

theorem pass_point_recorded (g : Globals) (s : Int) (o : WaitOutcome) :
    pass_point PassPoint.recorded g s o = (reap_body g s o).1 := rfl

/-- At every point of a pass on an outcome that does not carry the workload's
pid, `pid2` and the recorded exit code are what they were before the pass. -/
theorem pass_point_not_carried (pt : PassPoint) (g : Globals) (s : Int) (pid : Nat)
    (o : WaitOutcome) (hg : g.pid2 = (pid : Int)) (ho : carries pid o = false) :
    (pass_point pt g s o).pid2 = g.pid2 ∧
      (pass_point pt g s o).pid2_exitcode = g.pid2_exitcode := by
  cases o with
  | reaped p st =>
    have hp : ¬ ((p : Int) = g.pid2) := by
      simp only [carries, beq_eq_false_iff_ne, ne_eq] at ho
      rw [hg]
      omega
    cases pt <;> simp [pass_point, wait, hp]
  | failed e =>
    have hp : ¬ ((-1 : Int) = g.pid2) := by rw [hg]; omega
    cases pt <;> simp [pass_point, wait, hp]

/-! ## When `terminate` reaches `exit` -/

/-- What the code does: `terminate` reaches `exit(pid2_exitcode)` when `wait()`
fails with `ECHILD` (no child is left) once for every round with a non-empty
sweep, and does not reach it otherwise: the reap of a round waits until PID 1
has no children. -/
theorem terminate_exits_iff (env : TermEnv) (g : Globals) (ws : List WaitOutcome) :
    (nonempty_rounds env ≤ List.count no_children ws →
      (terminate env g ws).exit = some (terminate env g ws).globals.pid2_exitcode) ∧
    (List.count no_children ws < nonempty_rounds env → (terminate env g ws).exit = none) := by
  rw [nonempty_rounds_eq]
  constructor
  · intro h
    obtain ⟨g1, ws1, _, _, h3, h4, _⟩ :=
      terminate_loop_exits env TERM_ATTEMPTS g ws (Nat.le_refl _) h
    unfold terminate
    rw [h3, h4]
  · intro h
    exact terminate_loop_hangs env TERM_ATTEMPTS g ws h

/-! ## C1: the exit status of a workload that exits normally -/

/-- C1 (as stated, refuted): the workload (pid 2) is reported as having exited
normally with status 7 and the sequence ends with `ECHILD`, yet `main`
returns 3: a later child that carries the same pid (the kernel has reused it
for an adopted orphan) overwrites the recorded code. -/
theorem C1_counterexample :
    startup_pid2.launched 2 ∧
    WIFEXITED (exited 7) = true ∧ WEXITSTATUS (exited 7) = 7 ∧
    WaitOutcome.reaped 2 (exited 7) ∈
      [WaitOutcome.reaped 2 (exited 7), WaitOutcome.reaped 2 (exited 3), no_children] ∧
    [WaitOutcome.reaped 2 (exited 7), WaitOutcome.reaped 2 (exited 3), no_children].getLast? =
      some no_children ∧
    main startup_pid2
      [WaitOutcome.reaped 2 (exited 7), WaitOutcome.reaped 2 (exited 3), no_children] = some 3 := by
  refine ⟨⟨by decide, Or.inr rfl, rfl, by decide, rfl, rfl⟩, ?_, ?_, ?_, ?_, ?_⟩ <;> decide

/-- C1 (amended): for every sequence of `wait()` outcomes whose first `ECHILD`
failure is its last outcome, in which the workload's pid is reported as having
exited normally with status `S` and no later outcome carries the workload's
pid, `main` returns `S`. -/
theorem C1_exit_status (s : Startup) (pid : Nat) (S st : Int) (pre post : List WaitOutcome)
    (hs : s.launched pid) (he : WIFEXITED st = true) (hS : WEXITSTATUS st = S)
    (hpre : ∀ o ∈ pre, o ≠ no_children) (hpost : ∀ o ∈ post, o ≠ no_children)
    (hlater : ∀ o ∈ post, carries pid o = false) :
    main s (pre ++ WaitOutcome.reaped pid st :: (post ++ [no_children])) = some S := by
  obtain ⟨g1, s1, e1, hp1⟩ := reap_zombies_pass pre
    (WaitOutcome.reaped pid st :: (post ++ [no_children])) ⟨(pid : Int), 255, s.errno⟩ s.status hpre
  obtain ⟨g2, e2, _, hk2⟩ := reap_zombies_event pid st post [] g1 s1 hp1 hpost
    (fun o ho => keeps_of_not_carried pid o (hlater o ho))
  rw [main_launched s pid _ hs, e1, e2, Option.map_some', hk2,
    reap_body_exited g1 s1 pid st hp1.symm he, hS]

/-- C1 (amended), at a concrete input: the workload, pid 2, exits at once with
status 7, and `main` returns 7. -/
theorem C1_exit_status_witness :
    main startup_pid2 ([] ++ WaitOutcome.reaped 2 (exited 7) :: ([] ++ [no_children])) = some 7 :=
  C1_exit_status startup_pid2 2 7 (exited 7) [] []
    ⟨by decide, Or.inr rfl, rfl, by decide, rfl, rfl⟩
    (by decide) (by decide) (by decide) (by decide) (by decide)

/-! ## C2: the exit status of a workload killed by SIGTERM -/

/-- C2 (as stated, refuted): the workload (pid 2) is reported as killed by
SIGTERM, and a descendant reaped after it carries the same pid (reused by the
kernel) and exit status 3; `main` returns 3, not 0. -/
theorem C2_counterexample :
    startup_pid2.launched 2 ∧
    WIFSIGNALED (killed_by SIGTERM) = true ∧ WTERMSIG (killed_by SIGTERM) = SIGTERM ∧
    main startup_pid2
      [WaitOutcome.reaped 2 (killed_by SIGTERM), WaitOutcome.reaped 2 (exited 3), no_children] =
      some 3 := by
  refine ⟨⟨by decide, Or.inr rfl, rfl, by decide, rfl, rfl⟩, ?_, ?_, ?_⟩ <;> decide

/-- C2 (amended): when the workload's pid is reported as killed by SIGTERM and
no outcome after it carries the workload's pid, the supervisor exits with 0,
whatever the other outcomes are, in each of these runs. First, no SIGTERM
comes: `main` returns 0 on a sequence whose first `ECHILD` is its last
outcome. Second, the handler starts before `main` has taken the report from
`wait()`: `terminate` passes 0 to `exit` when the report is among the outcomes
its `reap_zombies` calls consume and each of these calls returns. Third, the
handler starts between two passes of the loop of `main` (or while `main` waits
in `wait()`), after the pass on the report: `terminate` passes 0 to `exit`
when each of its `reap_zombies` calls returns. Fourth, the handler starts
inside a later pass of the loop of `main`, at any point of it: the same. The
run in which the handler starts inside the pass on the report itself, after
`wait()` has returned and before line 102 has run, is not among these. -/
theorem C2_sigterm_exit_status (pid : Nat) (st : Int)
    (hs : WIFSIGNALED st = true) (ht : WTERMSIG st = SIGTERM) :
    (∀ (s : Startup) (pre post : List WaitOutcome), s.launched pid →
      (∀ o ∈ pre, o ≠ no_children) → (∀ o ∈ post, o ≠ no_children) →
      (∀ o ∈ post, carries pid o = false) →
      main s (pre ++ WaitOutcome.reaped pid st :: (post ++ [no_children])) = some 0) ∧
    (∀ (env : TermEnv) (g : Globals) (pre post : List WaitOutcome), g.pid2 = (pid : Int) →
      (∀ o ∈ post, carries pid o = false) →
      List.count no_children pre < nonempty_rounds env →
      nonempty_rounds env ≤ List.count no_children (pre ++ post) →
      (terminate env g (pre ++ WaitOutcome.reaped pid st :: post)).exit = some 0) ∧
    (∀ (env : TermEnv) (g : Globals) (s : Int) (pre post ws : List WaitOutcome),
      g.pid2 = (pid : Int) → (∀ o ∈ post, carries pid o = false) →
      (∀ o ∈ ws, carries pid o = false) →
      nonempty_rounds env ≤ List.count no_children ws →
      (terminate env (reap_run g s (pre ++ WaitOutcome.reaped pid st :: post)).1 ws).exit =
        some 0) ∧
    (∀ (env : TermEnv) (g : Globals) (s : Int) (pre post ws : List WaitOutcome)
      (o : WaitOutcome) (pt : PassPoint),
      g.pid2 = (pid : Int) → (∀ o ∈ post, carries pid o = false) → carries pid o = false →
      (∀ o ∈ ws, carries pid o = false) →
      nonempty_rounds env ≤ List.count no_children ws →
      (terminate env
        (pass_point pt (reap_run g s (pre ++ WaitOutcome.reaped pid st :: post)).1
          (reap_run g s (pre ++ WaitOutcome.reaped pid st :: post)).2 o) ws).exit = some 0) := by
  have hrec : ∀ (g : Globals) (s : Int), g.pid2 = (pid : Int) →
      (reap_body g s (WaitOutcome.reaped pid st)).1.pid2_exitcode = 0 := by
    intro g s hg
    rw [reap_body_sigterm g s pid st hg.symm hs ht]
  have hdone : ∀ (g : Globals) (s : Int) (pre post : List WaitOutcome), g.pid2 = (pid : Int) →
      (∀ o ∈ post, carries pid o = false) →
      (reap_run g s (pre ++ WaitOutcome.reaped pid st :: post)).1.pid2 = (pid : Int) ∧
      (reap_run g s (pre ++ WaitOutcome.reaped pid st :: post)).1.pid2_exitcode = 0 := by
    intro g s pre post hg hlater
    have hp : (reap_run g s pre).1.pid2 = (pid : Int) := by rw [reap_run_pid2, hg]
    refine ⟨by rw [reap_run_pid2, hg], ?_⟩
    rw [reap_run_append]
    simp only [reap_run]
    rw [reap_run_keeps pid post _ _ (by rw [reap_body_pid2, hp])
      (fun o ho => keeps_of_not_carried pid o (hlater o ho)), hrec _ _ hp]
  refine ⟨?_, ?_, ?_, ?_⟩
  · intro s pre post hl hpre hpost hlater
    obtain ⟨g1, s1, e1, hp1⟩ := reap_zombies_pass pre
      (WaitOutcome.reaped pid st :: (post ++ [no_children])) ⟨(pid : Int), 255, s.errno⟩
      s.status hpre
    obtain ⟨g2, e2, _, hk2⟩ := reap_zombies_event pid st post [] g1 s1 hp1 hpost
      (fun o ho => keeps_of_not_carried pid o (hlater o ho))
    rw [main_launched s pid _ hl, e1, e2, Option.map_some', hk2, hrec g1 s1 hp1]
  · intro env g pre post hg hlater hlt hle
    rw [nonempty_rounds_eq] at hlt hle
    exact terminate_loop_event env pid st 0 hrec TERM_ATTEMPTS g pre post hg
      (fun o ho => keeps_of_not_carried pid o (hlater o ho)) hlt hle
  · intro env g s pre post ws hg hlater hws hle
    rw [nonempty_rounds_eq] at hle
    obtain ⟨hp, h0⟩ := hdone g s pre post hg hlater
    have h1 := terminate_loop_keeps env pid TERM_ATTEMPTS
      (reap_run g s (pre ++ WaitOutcome.reaped pid st :: post)).1 ws
      hp (fun o ho => keeps_of_not_carried pid o (hws o ho)) hle
    rw [h0] at h1
    exact h1
  · intro env g s pre post ws o pt hg hlater ho hws hle
    rw [nonempty_rounds_eq] at hle
    obtain ⟨hp, h0⟩ := hdone g s pre post hg hlater
    obtain ⟨hp1, hc1⟩ := pass_point_not_carried pt
      (reap_run g s (pre ++ WaitOutcome.reaped pid st :: post)).1
      (reap_run g s (pre ++ WaitOutcome.reaped pid st :: post)).2 pid o hp ho
    have h1 := terminate_loop_keeps env pid TERM_ATTEMPTS _ ws
      (by rw [hp1, hp]) (fun o ho => keeps_of_not_carried pid o (hws o ho)) hle
    rw [hc1, h0] at h1
    exact h1

/-- C2 (amended), at concrete inputs, the workload being pid 7: `main` returns
0 when an orphan that exited with 3 is reaped before it and one killed by
SIGKILL after it; `terminate`, entered with the sentinel still recorded,
exits with 0 when its first reap collects the workload; and so it does when
entered after `main` has collected the workload, between two passes or inside
the pass on the next child. -/
theorem C2_sigterm_exit_status_witness :
    main { startup_pid2 with fork := 7 }
      ([WaitOutcome.reaped 9 (exited 3)] ++
        WaitOutcome.reaped 7 (killed_by SIGTERM) ::
          ([WaitOutcome.reaped 8 (killed_by 9)] ++ [no_children])) = some 0 ∧
    (terminate env_two_rounds ⟨7, 255, 0⟩
      ([WaitOutcome.reaped 9 (exited 3)] ++
        WaitOutcome.reaped 7 (killed_by SIGTERM) :: [no_children, no_children])).exit = some 0 ∧
    (terminate env_two_rounds
      (reap_run ⟨7, 255, 0⟩ 0 ([] ++ WaitOutcome.reaped 7 (killed_by SIGTERM) :: [])).1
      [WaitOutcome.reaped 9 (exited 3), no_children, no_children]).exit = some 0 ∧
    (terminate env_two_rounds
      (pass_point PassPoint.waited
        (reap_run ⟨7, 255, 0⟩ 0 ([] ++ WaitOutcome.reaped 7 (killed_by SIGTERM) :: [])).1
        (reap_run ⟨7, 255, 0⟩ 0 ([] ++ WaitOutcome.reaped 7 (killed_by SIGTERM) :: [])).2
        (WaitOutcome.reaped 9 (exited 3)))
      [no_children, no_children]).exit = some 0 :=
  ⟨(C2_sigterm_exit_status 7 (killed_by SIGTERM) (by decide) (by decide)).1
      { startup_pid2 with fork := 7 } [WaitOutcome.reaped 9 (exited 3)]
      [WaitOutcome.reaped 8 (killed_by 9)] ⟨by decide, Or.inr rfl, rfl, by decide, rfl, rfl⟩
      (by decide) (by decide) (by decide),
    (C2_sigterm_exit_status 7 (killed_by SIGTERM) (by decide) (by decide)).2.1
      env_two_rounds ⟨7, 255, 0⟩ [WaitOutcome.reaped 9 (exited 3)] [no_children, no_children]
      rfl (by decide) (by decide) (by decide),
    (C2_sigterm_exit_status 7 (killed_by SIGTERM) (by decide) (by decide)).2.2.1
      env_two_rounds ⟨7, 255, 0⟩ 0 [] []
      [WaitOutcome.reaped 9 (exited 3), no_children, no_children]
      rfl (by decide) (by decide) (by decide),
    (C2_sigterm_exit_status 7 (killed_by SIGTERM) (by decide) (by decide)).2.2.2
      env_two_rounds ⟨7, 255, 0⟩ 0 [] [] [no_children, no_children]
      (WaitOutcome.reaped 9 (exited 3)) PassPoint.waited
      rfl (by decide) (by decide) (by decide) (by decide)⟩

/-- The run the four cases leave out: the handler starts inside the pass on the
report of the workload (pid 7, killed by SIGTERM), after `wait()` has returned
it and before line 102 has recorded 0; PID 1 has no child left, the first sweep
is empty, and `terminate` exits with the sentinel 255. Once line 102 has run,
it exits with 0. -/
theorem sigterm_inside_report_pass :
    (terminate env_no_child
      (pass_point PassPoint.waited ⟨7, 255, 0⟩ 0 (WaitOutcome.reaped 7 (killed_by SIGTERM)))
      []).exit = some 255 ∧
    (terminate env_no_child
      (pass_point PassPoint.tested_exit ⟨7, 255, 0⟩ 0 (WaitOutcome.reaped 7 (killed_by SIGTERM)))
      []).exit = some 255 ∧
    (terminate env_no_child
      (pass_point PassPoint.recorded ⟨7, 255, 0⟩ 0 (WaitOutcome.reaped 7 (killed_by SIGTERM)))
      []).exit = some 0 := by
  decide

/-! ## C3: how often the recorded exit code changes -/

/-- A pass on an outcome that is not a report of the pid in `pid2` leaves the
recorded exit code alone, when `pid2` is not `-1`. -/
theorem reap_body_no_report (g : Globals) (s : Int) (o : WaitOutcome) (hg : g.pid2 ≠ -1)
    (ho : reports g.pid2 o = false) :
    (reap_body g s o).1.pid2_exitcode = g.pid2_exitcode := by
  cases o with
  | reaped p st =>
    have hp : (p : Int) ≠ g.pid2 := by simpa [reports] using ho
    rw [reap_body_other g s p st hp]
  | failed e => rw [reap_body_failed g s e hg]

/-- Within one call of `reap_zombies` the recorded exit code changes at most
as often as the pid in `pid2` is reported. -/
theorem changes_exitcode_passes (ws : List WaitOutcome) :
    ∀ (g : Globals) (s : Int) (tail : List Int), g.pid2 ≠ -1 →
      changes (g.pid2_exitcode :: (exitcode_passes g s ws ++ tail)) ≤
        (ws.filter (reports g.pid2)).length +
          changes ((reap_run g s ws).1.pid2_exitcode :: tail) := by
  induction ws with
  | nil => intro g s tail _; simp [exitcode_passes, reap_run]
  | cons o ws ih =>
    intro g s tail hg
    have h1 := ih (reap_body g s o).1 (reap_body g s o).2.2 tail
      (by rw [reap_body_pid2]; exact hg)
    rw [reap_body_pid2] at h1
    have e1 : exitcode_passes g s (o :: ws) = (reap_body g s o).1.pid2_exitcode ::
        exitcode_passes (reap_body g s o).1 (reap_body g s o).2.2 ws := rfl
    have e2 : reap_run g s (o :: ws) =
        reap_run (reap_body g s o).1 (reap_body g s o).2.2 ws := rfl
    have e3 : ∀ (a b : Int) (l : List Int),
        changes (a :: b :: l) = (if a = b then 0 else 1) + changes (b :: l) := fun _ _ _ => rfl
    rw [e1, e2, List.cons_append, e3]
    by_cases ho : reports g.pid2 o = true
    · rw [List.filter_cons_of_pos ho, List.length_cons]
      split <;> omega
    · rw [List.filter_cons_of_neg ho]
      rw [reap_body_no_report g s o hg (by simpa using ho)] at h1 ⊢
      simpa using h1

/-- At every point of a pass the value of `pid2` is what it was. -/
theorem pass_point_pid2 (pt : PassPoint) (g : Globals) (s : Int) (o : WaitOutcome) :
    (pass_point pt g s o).pid2 = g.pid2 := by
  cases pt <;> cases o <;> simp only [pass_point, wait] <;> (try split) <;> (try split) <;> rfl

/-- At every point of a pass on an outcome that is not a report of the pid in
`pid2` the recorded exit code is what it was, when `pid2` is not `-1`. -/
theorem pass_point_no_report (pt : PassPoint) (g : Globals) (s : Int) (o : WaitOutcome)
    (hg : g.pid2 ≠ -1) (ho : reports g.pid2 o = false) :
    (pass_point pt g s o).pid2_exitcode = g.pid2_exitcode := by
  cases o with
  | reaped p st =>
    have hp : ¬ ((p : Int) = g.pid2) := by simpa [reports] using ho
    cases pt <;> simp [pass_point, wait, hp]
  | failed e =>
    have hp : ¬ ((-1 : Int) = g.pid2) := fun h => hg h.symm
    cases pt <;> simp [pass_point, wait, hp]

theorem ReapCall.final_pid2 (c : ReapCall) (g : Globals) : (c.final g).pid2 = g.pid2 := by
  unfold ReapCall.final
  split
  · rw [reap_run_pid2]
  · rw [pass_point_pid2, reap_run_pid2]

/-- Over any series of calls of `reap_zombies` the recorded exit code changes
at most as often as the pid in `pid2` is reported. -/
theorem changes_exitcode_calls (calls : List ReapCall) :
    ∀ (g : Globals), g.pid2 ≠ -1 →
      changes (g.pid2_exitcode :: exitcode_calls g calls) ≤ workload_reports g.pid2 calls := by
  induction calls with
  | nil => intro g _; simp [exitcode_calls, changes, workload_reports]
  | cons c calls ih =>
    intro g hg
    have h2 := ih (c.final g) (by rw [ReapCall.final_pid2]; exact hg)
    rw [ReapCall.final_pid2] at h2
    have e3 : ∀ (a b : Int) (l : List Int),
        changes (a :: b :: l) = (if a = b then 0 else 1) + changes (b :: l) := fun _ _ _ => rfl
    have hrun : (reap_run g c.status c.outcomes).1.pid2 ≠ -1 := by rw [reap_run_pid2]; exact hg
    cases hc : c.cut with
    | none =>
      have h1 := changes_exitcode_passes c.outcomes g c.status
        (exitcode_calls (c.final g) calls) hg
      have hf : c.final g = (reap_run g c.status c.outcomes).1 := by
        simp only [ReapCall.final, hc]
      simp only [exitcode_calls, workload_reports, hc, List.nil_append]
      rw [hf] at h1 h2 ⊢
      omega
    | some cut =>
      obtain ⟨pt, o⟩ := cut
      have h1 := changes_exitcode_passes c.outcomes g c.status
        ((c.final g).pid2_exitcode :: exitcode_calls (c.final g) calls) hg
      have hf : c.final g = pass_point pt (reap_run g c.status c.outcomes).1
          (reap_run g c.status c.outcomes).2 o := by
        simp only [ReapCall.final, hc]
      rw [e3] at h1
      simp only [exitcode_calls, workload_reports, hc, List.singleton_append]
      by_cases ho : reports g.pid2 o = true
      · rw [if_pos ho]
        split at h1 <;> omega
      · have ho1 : reports (reap_run g c.status c.outcomes).1.pid2 o = false := by
          rw [reap_run_pid2]; simpa using ho
        have hk := pass_point_no_report pt (reap_run g c.status c.outcomes).1
          (reap_run g c.status c.outcomes).2 o hrun ho1
        rw [← hf] at hk
        rw [if_neg ho]
        rw [if_pos hk.symm] at h1
        omega

/-- C3 (as stated, refuted): with the workload's pid 2 reported twice in one
call of `reap_zombies` (the second time for an adopted orphan to which the
kernel gave the same pid), the recorded exit code goes from 255 to 3 and then
to 5: it changes twice. -/
theorem C3_counterexample :
    exitcode_calls ⟨2, 255, 0⟩
      [⟨0, [WaitOutcome.reaped 2 (exited 3), WaitOutcome.reaped 2 (exited 5), no_children],
        none⟩] = [3, 5, 5] ∧
    changes (255 :: exitcode_calls ⟨2, 255, 0⟩
      [⟨0, [WaitOutcome.reaped 2 (exited 3), WaitOutcome.reaped 2 (exited 5), no_children],
        none⟩]) = 2 := by
  decide

/-- C3 (amended): when `pid2` holds a pid (`fork` did not return `-1`), then
over every series of calls of `reap_zombies`, whatever their `wait()` outcomes
(reaped children and failed calls), whatever their local `status` starts with
and wherever the SIGTERM handler takes over, if at most one reaped child
carries the pid stored in `pid2`, the recorded exit code changes at most
once. -/
theorem C3_write_once (g : Globals) (calls : List ReapCall)
    (hg : g.pid2 ≠ -1) (h : workload_reports g.pid2 calls ≤ 1) :
    changes (g.pid2_exitcode :: exitcode_calls g calls) ≤ 1 :=
  Nat.le_trans (changes_exitcode_calls calls g hg) h

/-- C3 (amended), at a concrete input: `main` reaps an orphan and is in the
pass on a second one when the handler takes over; the handler makes two calls
of `reap_zombies`, the first one reaping the workload (pid 2, exit status 3)
and the second an orphan killed by SIGKILL; the recorded code changes once,
from 255 to 3. -/
theorem C3_write_once_witness :
    changes ((⟨2, 255, 0⟩ : Globals).pid2_exitcode ::
      exitcode_calls ⟨2, 255, 0⟩
        [⟨0, [WaitOutcome.reaped 7 (exited 1)],
            some (PassPoint.waited, WaitOutcome.reaped 6 (exited 2))⟩,
          ⟨5, [WaitOutcome.reaped 2 (exited 3), no_children], none⟩,
          ⟨9, [WaitOutcome.reaped 8 (killed_by 9), WaitOutcome.failed EINTR, no_children],
            none⟩]) ≤ 1 :=
  C3_write_once ⟨2, 255, 0⟩
    [⟨0, [WaitOutcome.reaped 7 (exited 1)],
        some (PassPoint.waited, WaitOutcome.reaped 6 (exited 2))⟩,
      ⟨5, [WaitOutcome.reaped 2 (exited 3), no_children], none⟩,
      ⟨9, [WaitOutcome.reaped 8 (killed_by 9), WaitOutcome.failed EINTR, no_children], none⟩]
    (by decide) (by decide)

/-! ## C4: what changes the recorded exit code -/

/-- C4 (the code at the failing input): `fork` fails, so `pid2` is `-1`; the
first `wait()` fails with `ECHILD` and returns `-1`, which equals `pid2`; the
local `status`, never written, holds 0, for which `WIFEXITED` is true; the
recorded exit code changes from 255 to 0 although no child was reaped, and
`main` returns 0. When an adopted orphan (pid 5, exit status 3) is reaped
first, the failed `wait()` that follows finds its status still in `status`,
and `main` returns 3. -/
theorem C4_fork_failure :
    (reap_body ⟨-1, 255, 0⟩ 0 no_children).1.pid2_exitcode = 0 ∧
    main startup_fork_fails [no_children] = some 0 ∧
    (reap_body ⟨-1, 255, 0⟩ (exited 3) no_children).1.pid2_exitcode = 3 ∧
    main startup_fork_fails [WaitOutcome.reaped 5 (exited 3), no_children] = some 3 := by
  decide

/-! ## C5: when the reap loop returns -/

/-- C5: `reap_zombies` goes on calling `wait()` after every outcome that is not
the failure with `ECHILD` (on outcomes `pre` without it, it has not returned),
and returns at the first `ECHILD`, leaving what follows it unconsumed; so on a
sequence whose first `ECHILD` is its last outcome it returns with nothing
left. -/
theorem C5_reap_until_no_children (g : Globals) (s : Int) (pre post : List WaitOutcome)
    (h : ∀ o ∈ pre, o ≠ no_children) :
    reap_zombies g s pre = none ∧
    (∃ g1, reap_zombies g s (pre ++ no_children :: post) = some (g1, post)) ∧
    (∃ g1, reap_zombies g s (pre ++ [no_children]) = some (g1, [])) :=
  ⟨reap_zombies_none pre g s h, ⟨_, reap_zombies_first_no_children pre post g s h⟩,
    ⟨_, reap_zombies_first_no_children pre [] g s h⟩⟩

/-- C5, at a concrete input: a reaped child and a `wait()` interrupted by a
signal do not end the loop, the `ECHILD` after them does. -/
theorem C5_reap_until_no_children_witness :
    reap_zombies ⟨2, 255, 0⟩ 0 [WaitOutcome.reaped 2 (exited 7), WaitOutcome.failed EINTR] = none ∧
    (∃ g1, reap_zombies ⟨2, 255, 0⟩ 0
      ([WaitOutcome.reaped 2 (exited 7), WaitOutcome.failed EINTR] ++
        no_children :: [WaitOutcome.reaped 5 0]) = some (g1, [WaitOutcome.reaped 5 0])) ∧
    (∃ g1, reap_zombies ⟨2, 255, 0⟩ 0
      ([WaitOutcome.reaped 2 (exited 7), WaitOutcome.failed EINTR] ++ [no_children]) =
        some (g1, [])) :=
  C5_reap_until_no_children ⟨2, 255, 0⟩ 0
    [WaitOutcome.reaped 2 (exited 7), WaitOutcome.failed EINTR] [WaitOutcome.reaped 5 0]
    (by decide)

/-! ## C6: whom the sweep signals -/

/-- C6 (the code at the failing input): in a `/proc` that lists PID 1, its
children 44 (`tmux: server`) and 50 (`sh`), and 77 (`a b 1`), a child of 50,
the processes whose parent is 1 are 44 and 50; `kill_children(1)` signals 50
and 77 and returns 2: the child 44 gets no signal, and 77, which is not a
child of PID 1, gets one. -/
theorem C6_kill_children_blanks :
    children table_blanks 1 = [44, 50] ∧
    kill_children (procfs table_blanks ["self".toList, "cpuinfo".toList] more_fields) 1 =
      ([50, 77], 2) := by
  decide

/-! ## C7: the parent pid read from `/proc` -/

/-- C7 (the code at the failing inputs): for the process 1234567, a child of
PID 1, the path is cut to `/proc/1234567/sta`, which does not exist, and
`get_ppid` returns 0 instead of 1; for the process 44 with command name
`tmux: server` the parse fails and `get_ppid` returns 0 instead of 1; for the
process 77 with command name `a b 1`, a child of 50, `get_ppid` returns 1. -/
theorem C7_get_ppid_fails :
    fname (decimal 1234567) = "/proc/1234567/sta".toList ∧
    get_ppid (procfs table_long_pid [] more_fields) (decimal 1234567) = 0 ∧
    get_ppid (procfs table_blanks [] more_fields) (decimal 44) = 0 ∧
    get_ppid (procfs table_blanks [] more_fields) (decimal 77) = 1 ∧
    get_ppid (procfs table_blanks [] more_fields) (decimal 50) = 1 := by
  decide

/-! ## C8: a child that never exits -/

/-- C8 (the code at the failing inputs): PID 1 has a child, pid 7, that ignores
SIGTERM and never exits. The first sweep signals it; the `reap_zombies` of
that round collects a child that has died (pid 9) and then waits in `wait()`
for the child that is alive; no further outcome comes, and `terminate` does
not reach `exit`: its actions stop in the first round, one sweep made of the
five. Likewise when the workload (pid 7) dies of the SIGTERM of the first
sweep and leaves a child of its own (pid 8) to PID 1: the reap of the first
round records 0 and then waits for pid 8, which no sweep ever signals,
although the second sweep would find it. -/
theorem C8_terminate_hangs :
    sweep_result env_stubborn 0 = 1 ∧
    (terminate env_stubborn ⟨7, 255, 0⟩ [WaitOutcome.reaped 9 (exited 0)]).exit = none ∧
    (terminate env_stubborn ⟨7, 255, 0⟩ [WaitOutcome.reaped 9 (exited 0)]).actions =
      [Action.sweep [7] 1, Action.sleep, Action.reap] ∧
    sweep_signals env_grandchild 1 = [8] ∧
    (terminate env_grandchild ⟨7, 255, 0⟩ [WaitOutcome.reaped 7 (killed_by SIGTERM)]).exit =
      none ∧
    (terminate env_grandchild ⟨7, 255, 0⟩ [WaitOutcome.reaped 7 (killed_by SIGTERM)]).actions =
      [Action.sweep [7] 1, Action.sleep, Action.reap] ∧
    (terminate env_grandchild ⟨7, 255, 0⟩
      [WaitOutcome.reaped 7 (killed_by SIGTERM)]).globals.pid2_exitcode = 0 := by
  decide

/-! ## C9: the rounds of `terminate` -/

/-- C9 (as stated, refuted): all five sweeps would find the child of PID 1
(pid 7, which never exits), so there is no empty sweep and the claim gives
five sweeps, five reaps and an `exit`; the `reap_zombies` of the first round
does not return, and `terminate` makes one sweep and never reaches `exit`. -/
theorem C9_counterexample :
    (List.range TERM_ATTEMPTS).map (sweep_result env_stubborn) = [1, 1, 1, 1, 1] ∧
    ((terminate env_stubborn ⟨7, 255, 0⟩ []).actions.filter Action.is_sweep).length = 1 ∧
    ((terminate env_stubborn ⟨7, 255, 0⟩ []).actions.filter Action.is_reap).length = 1 ∧
    (terminate env_stubborn ⟨7, 255, 0⟩ []).exit = none := by
  decide

/-- C9 (amended): let the sweeps before round `j` (counted from 0) be non-empty
and the sweep of round `j`, the `j + 1`-th sweep, be empty if it is within the
budget, and let every `reap_zombies` call return (an `ECHILD` failure comes
for each of the `min 5 j` rounds). Then `terminate` does `min 5 j` rounds of sweep,
sleep and one `reap_zombies`, then the empty sweep if `j < 5`, then nothing
but `exit` with the exit code recorded after these reaps; the number of sweeps
is `min 5 (j + 1)`, the number of reaps `min 5 j`, and the empty sweep sends
no signal. -/
theorem C9_terminate_rounds (env : TermEnv) (g : Globals) (ws : List WaitOutcome) (j : Nat)
    (hne : ∀ i, i < j → sweep_result env i ≠ 0)
    (hz : j < TERM_ATTEMPTS → sweep_result env j = 0)
    (hw : min TERM_ATTEMPTS j ≤ List.count no_children ws) :
    ∃ g1 ws1, reap_rounds env 0 (min TERM_ATTEMPTS j) g ws = some (g1, ws1) ∧
      (terminate env g ws).actions =
        (List.range' 0 (min TERM_ATTEMPTS j)).flatMap (round_actions env) ++
          (if j < TERM_ATTEMPTS then [Action.sweep [] 0] else []) ++
          [Action.exit g1.pid2_exitcode] ∧
      (terminate env g ws).exit = some g1.pid2_exitcode ∧
      ((terminate env g ws).actions.filter Action.is_sweep).length = min TERM_ATTEMPTS (j + 1) ∧
      ((terminate env g ws).actions.filter Action.is_reap).length = min TERM_ATTEMPTS j := by
  have hn := nonempty_rounds_eq_min env j hne hz
  rw [nonempty_rounds_eq] at hn
  obtain ⟨g1, ws1, h1, h2, h3, _, _⟩ :=
    terminate_loop_exits env TERM_ATTEMPTS g ws (Nat.le_refl _) (by rw [hn]; exact hw)
  rw [hn, Nat.sub_self] at h1 h2
  have hc := cascade_actions_count env 0 (min TERM_ATTEMPTS j) g1.pid2_exitcode
  refine ⟨g1, ws1, h1, ?_, h3, ?_, ?_⟩
  · unfold terminate
    rw [h2, cascade_actions]
    by_cases hj : j < TERM_ATTEMPTS
    · have hm : min TERM_ATTEMPTS j = j := by omega
      have h0 := hz hj
      simp only [hm, Nat.zero_add, hj, if_true, h0, sweep_signals_of_empty env j h0]
    · have hm : ¬ (0 + min TERM_ATTEMPTS j < TERM_ATTEMPTS) := by omega
      simp only [hm, hj, if_false]
  · unfold terminate
    rw [h2, hc.1]
    split <;> omega
  · unfold terminate
    rw [h2, hc.2]

/-- C9 (amended), at a concrete input: the child of PID 1 is there for two sweeps and
gone at the third, and each reap returns; `terminate` sweeps three times,
reaps twice and exits with the recorded code. -/
theorem C9_terminate_rounds_witness :
    ∃ g1 ws1, reap_rounds env_two_rounds 0 (min TERM_ATTEMPTS 2) ⟨7, 255, 0⟩
        [no_children, WaitOutcome.reaped 7 (exited 4), no_children] = some (g1, ws1) ∧
      (terminate env_two_rounds ⟨7, 255, 0⟩
          [no_children, WaitOutcome.reaped 7 (exited 4), no_children]).actions =
        (List.range' 0 (min TERM_ATTEMPTS 2)).flatMap (round_actions env_two_rounds) ++
          (if 2 < TERM_ATTEMPTS then [Action.sweep [] 0] else []) ++
          [Action.exit g1.pid2_exitcode] ∧
      (terminate env_two_rounds ⟨7, 255, 0⟩
          [no_children, WaitOutcome.reaped 7 (exited 4), no_children]).exit =
        some g1.pid2_exitcode ∧
      ((terminate env_two_rounds ⟨7, 255, 0⟩
          [no_children, WaitOutcome.reaped 7 (exited 4), no_children]).actions.filter
        Action.is_sweep).length = min TERM_ATTEMPTS (2 + 1) ∧
      ((terminate env_two_rounds ⟨7, 255, 0⟩
          [no_children, WaitOutcome.reaped 7 (exited 4), no_children]).actions.filter
        Action.is_reap).length = min TERM_ATTEMPTS 2 :=
  C9_terminate_rounds env_two_rounds ⟨7, 255, 0⟩
    [no_children, WaitOutcome.reaped 7 (exited 4), no_children] 2
    (by intro i hi; interval_cases i <;> decide) (by intro _; decide) (by decide)

/-! ## C10: a workload killed by another signal than SIGTERM -/

/-- C10: when the workload is reaped as killed by a signal other than SIGTERM,
that pass of the reap loop leaves the recorded exit code (and every global)
unchanged; and when this is the only outcome carrying the workload's pid, the
supervisor exits with the sentinel 255: `main` returns 255 on a sequence whose
first `ECHILD` is its last outcome, and `terminate`, entered with the sentinel
recorded, passes 255 to `exit` when each of its reaps returns. -/
theorem C10_other_signal (pid : Nat) (st : Int)
    (hs : WIFSIGNALED st = true) (ht : WTERMSIG st ≠ SIGTERM) :
    (∀ (g : Globals) (s : Int), g.pid2 = (pid : Int) →
      (reap_body g s (WaitOutcome.reaped pid st)).1 = g) ∧
    (∀ (s : Startup) (pre post : List WaitOutcome), s.launched pid →
      (∀ o ∈ pre, o ≠ no_children) → (∀ o ∈ post, o ≠ no_children) →
      (∀ o ∈ pre, carries pid o = false) → (∀ o ∈ post, carries pid o = false) →
      main s (pre ++ WaitOutcome.reaped pid st :: (post ++ [no_children])) = some 255) ∧
    (∀ (env : TermEnv) (g : Globals) (pre post : List WaitOutcome), g.pid2 = (pid : Int) →
      g.pid2_exitcode = 255 →
      (∀ o ∈ pre, carries pid o = false) → (∀ o ∈ post, carries pid o = false) →
      nonempty_rounds env ≤ List.count no_children (pre ++ WaitOutcome.reaped pid st :: post) →
      (terminate env g (pre ++ WaitOutcome.reaped pid st :: post)).exit = some 255) := by
  have hev : keeps pid (WaitOutcome.reaped pid st) = true := by
    simp [keeps, hs, ht]
  have hall : ∀ (pre post : List WaitOutcome), (∀ o ∈ pre, carries pid o = false) →
      (∀ o ∈ post, carries pid o = false) →
      ∀ o ∈ pre ++ WaitOutcome.reaped pid st :: post, keeps pid o = true := by
    intro pre post h1 h2 o ho
    rcases List.mem_append.1 ho with h | h
    · exact keeps_of_not_carried pid o (h1 o h)
    · rcases List.mem_cons.1 h with h | h
      · rw [h]; exact hev
      · exact keeps_of_not_carried pid o (h2 o h)
  refine ⟨fun g s _ => reap_body_other_signal g s pid st hs ht, ?_, ?_⟩
  · intro s pre post hl hpre hpost hcpre hcpost
    have hne : ∀ o ∈ pre ++ WaitOutcome.reaped pid st :: post, o ≠ no_children := by
      intro o ho
      rcases List.mem_append.1 ho with h | h
      · exact hpre o h
      · rcases List.mem_cons.1 h with h | h
        · rw [h]; simp [no_children]
        · exact hpost o h
    obtain ⟨g1, e1, _, hk1⟩ := reap_zombies_keep pid (pre ++ WaitOutcome.reaped pid st :: post) []
      ⟨(pid : Int), 255, s.errno⟩ s.status rfl hne (hall pre post hcpre hcpost)
    have hws : pre ++ WaitOutcome.reaped pid st :: (post ++ [no_children]) =
        (pre ++ WaitOutcome.reaped pid st :: post) ++ [no_children] := by simp
    rw [main_launched s pid _ hl, hws, e1, Option.map_some', hk1]
  · intro env g pre post hg hc hcpre hcpost hle
    rw [nonempty_rounds_eq] at hle
    have h1 := terminate_loop_keeps env pid TERM_ATTEMPTS g _ hg (hall pre post hcpre hcpost) hle
    rw [hc] at h1
    exact h1

/-- C10, at concrete inputs: the workload, pid 7, is killed by SIGKILL. -/
theorem C10_other_signal_witness :
    (reap_body ⟨7, 255, 0⟩ 0 (WaitOutcome.reaped 7 (killed_by 9))).1 = ⟨7, 255, 0⟩ ∧
    main { startup_pid2 with fork := 7 }
      ([WaitOutcome.reaped 9 (exited 3)] ++
        WaitOutcome.reaped 7 (killed_by 9) :: ([] ++ [no_children])) = some 255 ∧
    (terminate env_two_rounds ⟨7, 255, 0⟩
      ([] ++ WaitOutcome.reaped 7 (killed_by 9) :: [no_children, no_children])).exit =
      some 255 :=
  ⟨(C10_other_signal 7 (killed_by 9) (by decide) (by decide)).1 ⟨7, 255, 0⟩ 0 rfl,
    (C10_other_signal 7 (killed_by 9) (by decide) (by decide)).2.1
      { startup_pid2 with fork := 7 } [WaitOutcome.reaped 9 (exited 3)] []
      ⟨by decide, Or.inr rfl, rfl, by decide, rfl, rfl⟩
      (by decide) (by decide) (by decide) (by decide),
    (C10_other_signal 7 (killed_by 9) (by decide) (by decide)).2.2
      env_two_rounds ⟨7, 255, 0⟩ [] [no_children, no_children] rfl rfl
      (by decide) (by decide) (by decide)⟩

end Pid1
